import Mathlib

/-!
Verification development for the document-service repository.

The definitions below are shallow embeddings of the Python source:
JSON/dict values become the inductive `Meta`, Python truthiness becomes
`Meta.truthy`, dict operations become association-list operations that
preserve insertion order, and code that can raise becomes `Except`.
Each definition names the source function it embeds.
-/

set_option maxRecDepth 4096

/-- A Python/JSON value as it appears in metadata maps. -/
inductive Meta where
  | str (s : String)
  | num (n : Int)
  | bool (b : Bool)
  | null
  | arr (xs : List Meta)
  | obj (fields : List (String × Meta))
deriving Repr

/-- Python truthiness (`bool(x)`): empty string, zero, `False`, `None`,
empty list and empty dict are falsy. -/
def Meta.truthy : Meta → Bool
  | .str s => s != ""
  | .num n => n != 0
  | .bool b => b
  | .null => false
  | .arr xs => !xs.isEmpty
  | .obj fs => !fs.isEmpty

/-- `dict.get(key)`: first binding of `key`, `None` when absent. -/
def getField : List (String × Meta) → String → Option Meta
  | [], _ => none
  | (k, v) :: rest, key => if k == key then some v else getField rest key

/-- `key in dict`. -/
def hasField (fields : List (String × Meta)) (key : String) : Bool :=
  (getField fields key).isSome

/-- Truthiness of a `dict.get` result (absent counts as `None`, falsy). -/
def optTruthy : Option Meta → Bool
  | none => false
  | some m => m.truthy

/-- Python `a or b` over two `dict.get` results. -/
def pyOrOpt (a b : Option Meta) : Option Meta :=
  if optTruthy a then a else b

/-- `dict[key] = value`: replace the first binding in place, else append. -/
def setField : List (String × Meta) → String → Meta → List (String × Meta)
  | [], k, v => [(k, v)]
  | (k0, v0) :: rest, k, v =>
      if k0 == k then (k, v) :: rest else (k0, v0) :: setField rest k v

/-- `dict.pop(key, None)`: drop the binding for `key`. -/
def popField (fields : List (String × Meta)) (key : String) : List (String × Meta) :=
  fields.filter (fun kv => kv.1 != key)

/-- `target.update(d)`: apply each binding of `d` in order. -/
def updateFields (target : List (String × Meta)) (d : List (String × Meta)) :
    List (String × Meta) :=
  d.foldl (fun acc kv => setField acc kv.1 kv.2) target

/-- The whitespace characters removed by Python `str.strip()`. -/
def isPySpace (c : Char) : Bool :=
  c == ' ' || c == '\t' || c == '\n' || c == '\r' ||
    c == Char.ofNat 11 || c == Char.ofNat 12

/-- Python `str.strip()`. -/
def pyStrip (s : String) : String :=
  String.mk (((s.data.dropWhile isPySpace).reverse.dropWhile isPySpace).reverse)

/-- Python `str.split()` with no argument: split on whitespace runs. -/
def pySplitWs (s : String) : List String :=
  (s.split isPySpace).filter (fun t => t != "")

/-- Python `str.lower()` (ASCII, matching the codes and types it is applied to). -/
def pyLower (s : String) : String :=
  String.mk (s.data.map Char.toLower)

/-- Python `str.startswith(pre)`. -/
def pyStartsWith (s pre : String) : Bool :=
  pre.data.isPrefixOf s.data

-- ---------------------------------------------------------------------
-- src/features/validation/utils.py
-- ---------------------------------------------------------------------

/-- `USER_ENTITY_TYPES` from validation/utils.py. -/
def USER_ENTITY_TYPES : List String := ["user", "person", "usuario"]

/-- `is_user_type` from validation/utils.py. -/
def isUserType (entityType : Option String) : Bool :=
  USER_ENTITY_TYPES.contains (pyLower (entityType.getD ""))

/-- `looks_like_user_payload` from validation/utils.py: key presence only. -/
def looksLikeUserPayload (value : List (String × Meta)) : Bool :=
  hasField value "first_name" || hasField value "last_name" ||
    hasField value "display_name" || hasField value "email"

/-- `map_type_to_collection` from validation/utils.py. -/
def mapTypeToCollection (entityType : Option String) : Option String :=
  let t := pyLower (entityType.getD "")
  if t == "user" then some "dms_users"
  else if t == "person" then some "dms_users"
  else if t == "faculty" then some "entities"
  else if t == "career" then some "entities"
  else if t == "department" then some "entities"
  else if t == "facultad" then some "entities"
  else if t == "carrera" then some "entities"
  else none

/-- `candidate not in (None, "")` from `extract_metadata_value`. -/
def viable : Option Meta → Bool
  | none => false
  | some .null => false
  | some (.str s) => s != ""
  | some _ => true

/-- First viable candidate of a list of lookups. -/
def firstViable : List (Option Meta) → Option Meta
  | [] => none
  | o :: rest => if viable o then o else firstViable rest

/-- `extract_metadata_value` from validation/utils.py: for a dict, the first
non-(None/empty) of `display_name`, `name`, `code`, `email`, `id`, then the
first non-(None/empty) remaining attribute, else `None`; scalars pass through. -/
def extractMetadataValue : Meta → Meta
  | .obj fields =>
      match firstViable
          [getField fields "display_name", getField fields "name",
           getField fields "code", getField fields "email",
           getField fields "id"] with
      | some m => m
      | none =>
          match fields.find? (fun kv => viable (some kv.2)) with
          | some kv => kv.2
          | none => .null
  | m => m

/-- `(x or "").strip()` on a `dict.get` result; raises `TypeError` when the
truthy value is not a string. -/
def stripOrEmpty (o : Option Meta) : Except String String :=
  if optTruthy o then
    match o with
    | some (.str s) => .ok (pyStrip s)
    | _ => .error "TypeError"
  else .ok ""

/-- Keep bindings whose value is not `None`/absent (`v is not None`). -/
def keepSomes (l : List (String × Option Meta)) : List (String × Meta) :=
  l.foldr
    (fun kv acc => match kv.2 with
      | some m => (kv.1, m) :: acc
      | none => acc) []

/-- Keep bindings whose value is truthy (`if v` comprehension filter). -/
def keepTruthy (l : List (String × Option Meta)) : List (String × Meta) :=
  l.foldr
    (fun kv acc => match kv.2 with
      | some m => if m.truthy then (kv.1, m) :: acc else acc
      | none => acc) []

/-- The display-name fallback of `filter_entity_fields`: take `display_name`
when truthy, else join the stripped `first_name` and `last_name`, `None`
when that is empty. -/
def userDisplayName (val : List (String × Meta)) : Except String (Option Meta) :=
  if optTruthy (getField val "display_name") then .ok (getField val "display_name")
  else do
    let fn ← stripOrEmpty (getField val "first_name")
    let ln ← stripOrEmpty (getField val "last_name")
    let s := pyStrip (fn ++ " " ++ ln)
    .ok (if s == "" then none else some (.str s))

/-- `filter_entity_fields` from validation/utils.py. -/
def filterEntityFields (val : List (String × Meta)) :
    Except String (List (String × Meta)) :=
  if looksLikeUserPayload val then
    (userDisplayName val).map (fun dn => keepSomes
      [("id", getField val "id"), ("display_name", dn),
       ("email", getField val "email")])
  else
    .ok (keepSomes
      [("id", getField val "id"), ("name", getField val "name"),
       ("code", getField val "code"), ("type", getField val "type")])

/-- `item.get("is_valid") is False`. -/
def isLiteralFalse : Option Meta → Bool
  | some (.bool b) => !b
  | _ => false

/-- The `minimal` fallback of `sanitize_metadata` when a wrapper stores a
`None` value: the truthy `id`/`display_name`/`email` attributes. -/
def minimalFields (fields : List (String × Meta)) : List (String × Meta) :=
  keepTruthy
    [("id", getField fields "id"),
     ("display_name", getField fields "display_name"),
     ("email", getField fields "email")]

/-- The wrapper dispatch of `sanitize_metadata` on the stored `value`. -/
def sanitizeWrapperValue (fields : List (String × Meta)) :
    Option Meta → Except String Meta
  | some (.obj valFields) => do
      let normalized ← filterEntityFields valFields
      .ok (.obj (setField normalized "value"
        (extractMetadataValue (.obj normalized))))
  | some .null =>
      if (minimalFields fields).isEmpty then .ok .null
      else .ok (.obj (setField (minimalFields fields) "value"
        (extractMetadataValue (.obj (minimalFields fields)))))
  | some v => .ok (.obj [("value", v)])
  | none => .ok (.obj [("value", .null)])

/-- Per-entry transform of `sanitize_metadata` from validation/utils.py. -/
def sanitizeItem : Meta → Except String Meta
  | .obj fields =>
      if hasField fields "value" then
        if isLiteralFalse (getField fields "is_valid") then .ok .null
        else sanitizeWrapperValue fields (getField fields "value")
      else
        .ok (.obj (setField fields "value" (extractMetadataValue (.obj fields))))
  | item => .ok (.obj [("value", item)])

/-- Allowed-keys test: `allowed_keys is not None and key not in allowed_keys`. -/
def allowedOk (allowed : Option (List String)) (key : String) : Bool :=
  match allowed with
  | none => true
  | some l => l.contains key

/-- `sanitize_metadata` from validation/utils.py: drop keys outside the
allowed key set of the schema and rewrite every surviving entry. -/
def sanitizeMetadata (raw : List (String × Meta)) (allowed : Option (List String)) :
    Except String (List (String × Meta)) :=
  match raw with
  | [] => .ok []
  | (k, item) :: rest =>
      if allowedOk allowed k then do
        let v ← sanitizeItem item
        let tail ← sanitizeMetadata rest allowed
        .ok ((k, v) :: tail)
      else sanitizeMetadata rest allowed

-- ---------------------------------------------------------------------
-- src/features/validation/entities_service.py
-- ---------------------------------------------------------------------

/-- An entity vertex as read by `ensure_entities_exist`: its key and its
optional `code_numeric` attribute. -/
structure EntityVertex where
  key : String
  code_numeric : Option Meta
deriving Repr

/-- The slice of the graph store touched by the confirmation engine:
the `entities` collection and the keys of the `dms_users` collection. -/
structure GraphDb where
  entities : List EntityVertex
  dmsUsers : List String
deriving Repr

/-- `db.collection(c).has(id)` for the collections the engine touches;
only string ids can be present. -/
def dbHas (db : GraphDb) (collection : String) (id : Meta) : Bool :=
  match id with
  | .str s =>
      if collection == "entities" then (db.entities.map (·.key)).contains s
      else if collection == "dms_users" then db.dmsUsers.contains s
      else false
  | _ => false

/-- `db.collection("entities").get(id)`. -/
def dbGetEntity (db : GraphDb) (id : Meta) : Option EntityVertex :=
  match id with
  | .str s => db.entities.find? (fun e => e.key == s)
  | _ => none

/-- A `dms_users` document, as handed around by the users service. -/
def UserDoc := List (String × Meta)

/-- The users service the entities service is constructed with
(`EntitiesService.__init__(users_service)`); the operations carry the
graph state explicitly. -/
structure UsersModel where
  findOrCreateUser : GraphDb → Option Meta → Option Meta → Option Meta → GraphDb × Option UserDoc
  createNewUserNode : GraphDb → Option Meta → Option Meta → GraphDb × String
  verifyUserExists : GraphDb → Meta → Bool
  buildMetadataFromUser : UserDoc → List (String × Meta)

/-- `entity_types_from_schema` read through `.get(key)`: the entity-type
key a schema assigns to a field, `None` when absent. -/
def SchemaTypes := String → Option String

/-- `"value" in item and isinstance(item.get("value"), dict)`. -/
def isWrappedObject (fields : List (String × Meta)) : Bool :=
  match getField fields "value" with
  | some (.obj _) => true
  | _ => false

/-- The inner object the engine inspects: `item["value"]` when wrapped,
the item itself otherwise. -/
def entryValObj (fields : List (String × Meta)) : List (String × Meta) :=
  match getField fields "value" with
  | some (.obj inner) => inner
  | _ => fields

/-- Rebuild the metadata entry after the engine mutated the inner object
(`target.update(...)` happens on `item["value"]` when wrapped, on
`metadata[key]` otherwise). -/
def rebuildEntry (fields newValObj : List (String × Meta)) : Meta :=
  if isWrappedObject fields then .obj (setField fields "value" (.obj newValObj))
  else .obj newValObj

/-- `type_str = val_obj.get("type") or expected_type`, where a truthy
non-string `type` raises inside `is_user_type`. -/
def entryTypeStr (valObj : List (String × Meta)) (expected : Option String) :
    Except String (Option String) :=
  match getField valObj "type" with
  | some m =>
      if m.truthy then
        match m with
        | .str s => .ok (some s)
        | _ => .error "TypeError"
      else .ok expected
  | none => .ok expected

/-- The user discriminator of the engine:
`is_user_type(type_str) or looks_like_user_payload(val_obj)`. -/
def isUserEntry (valObj : List (String × Meta)) (typeStr : Option String) : Bool :=
  isUserType typeStr || looksLikeUserPayload valObj

/-- `target.update({...}); _remove_name_fragments(target)` for a found or
freshly created user. -/
def applyUserFields (valObj upd : List (String × Meta)) : List (String × Meta) :=
  popField (popField (updateFields valObj upd) "first_name") "last_name"

/-- The user branch of `ensure_entities_exist` after the existing-id check
failed or was skipped: find or create the user and update the target. -/
def userFallback (us : UsersModel) (db : GraphDb) (key : String)
    (fields valObj : List (String × Meta)) : GraphDb × Except String (String × Meta) :=
  let nameV := pyOrOpt (getField valObj "name") (getField valObj "display_name")
  let r := us.findOrCreateUser db nameV (getField valObj "email") (getField valObj "guid_ms")
  match r.2 with
  | some userDoc =>
      (r.1, .ok (key, rebuildEntry fields (applyUserFields valObj (us.buildMetadataFromUser userDoc))))
  | none =>
      let r2 := us.createNewUserNode r.1 nameV (getField valObj "email")
      let upd := [("id", .str r2.2), ("type", .str "user"),
                  ("display_name", (nameV.getD .null))]
      (r2.1, .ok (key, rebuildEntry fields (applyUserFields valObj upd)))

/-- The non-user branch of `ensure_entities_exist`: an existing entity id is
mandatory and must be present in the mapped collection; on success the
`code_numeric` attribute of the entity is copied onto the target. -/
def structuralEntityCheck (db : GraphDb) (key : String)
    (fields valObj : List (String × Meta)) (typeStr : Option String) :
    GraphDb × Except String (String × Meta) :=
  let collection := (mapTypeToCollection typeStr).getD "entities"
  let entityId := getField valObj "id"
  if !optTruthy entityId then
    (db, .error ("El campo " ++ key ++ " requiere una entidad existente (id obligatorio)."))
  else
    match entityId with
    | none => (db, .error "unreachable")
    | some eid =>
        if !dbHas db collection eid then
          (db, .error ("La entidad del campo " ++ key ++ " no existe en " ++ collection ++ "."))
        else
          match dbGetEntity db eid with
          | some entityDoc =>
              match entityDoc.code_numeric with
              | some cn => (db, .ok (key, rebuildEntry fields (setField valObj "code_numeric" cn)))
              | none => (db, .ok (key, rebuildEntry fields valObj))
          | none => (db, .ok (key, rebuildEntry fields valObj))

/-- One iteration of the `ensure_entities_exist` loop. -/
def ensureEntry (us : UsersModel) (db : GraphDb) (key : String) (item : Meta)
    (expected : Option String) : GraphDb × Except String (String × Meta) :=
  match item with
  | .obj fields =>
      let valObj := entryValObj fields
      match entryTypeStr valObj expected with
      | .error e => (db, .error e)
      | .ok typeStr =>
          if isUserEntry valObj typeStr then
            match getField valObj "id" with
            | some eid =>
                if eid.truthy then
                  if us.verifyUserExists db eid then (db, .ok (key, item))
                  else userFallback us db key fields valObj
                else userFallback us db key fields valObj
            | none => userFallback us db key fields valObj
          else structuralEntityCheck db key fields valObj typeStr
  | .str s =>
      if isUserType expected && pyStrip s != "" then
        let r := us.findOrCreateUser db (some (.str (pyStrip s))) none none
        match r.2 with
        | some userDoc => (r.1, .ok (key, .obj (us.buildMetadataFromUser userDoc)))
        | none =>
            let r2 := us.createNewUserNode r.1 (some (.str (pyStrip s))) none
            (r2.1, .ok (key, .obj
              [("id", .str r2.2), ("type", .str "user"),
               ("display_name", .str (pyStrip s))]))
      else (db, .ok (key, item))
  | _ => (db, .ok (key, item))

/-- `EntitiesService.ensure_entities_exist` from entities_service.py:
walk the proposed metadata in order; user fields are verified or created
through the users service, non-user entity fields must reference an existing
entity; a `ValueError` aborts the walk but keeps earlier graph effects. -/
def ensureEntitiesExist (us : UsersModel) (db : GraphDb)
    (metadata : List (String × Meta)) (etypes : SchemaTypes) :
    GraphDb × Except String (List (String × Meta)) :=
  match metadata with
  | [] => (db, .ok [])
  | (key, item) :: rest =>
      let r := ensureEntry us db key item (etypes key)
      match r.2 with
      | .error e => (r.1, .error e)
      | .ok entry =>
          let r2 := ensureEntitiesExist us r.1 rest etypes
          match r2.2 with
          | .error e => (r2.1, .error e)
          | .ok entries => (r2.1, .ok (entry :: entries))

-- ---------------------------------------------------------------------
-- src/features/validation/service.py (the ValidationService wired in src)
-- ---------------------------------------------------------------------

/-- `ValidationService._map_type_to_collection` from service.py (no
lower-casing, `usuario` absent from the mapping). -/
def oldMapTypeToCollection (entityType : Meta) : Option String :=
  match entityType with
  | .str t =>
      if t == "user" then some "dms_users"
      else if t == "person" then some "dms_users"
      else if t == "faculty" then some "entities"
      else if t == "career" then some "entities"
      else if t == "department" then some "entities"
      else if t == "facultad" then some "entities"
      else if t == "carrera" then some "entities"
      else none
  | _ => none

/-- `ValidationService._filter_entity_fields` from service.py (same body as
the utils version). -/
def oldFilterEntityFields (val : List (String × Meta)) :
    Except String (List (String × Meta)) :=
  if looksLikeUserPayload val then
    (userDisplayName val).map (fun dn => keepSomes
      [("id", getField val "id"), ("display_name", dn),
       ("email", getField val "email")])
  else
    .ok (keepSomes
      [("id", getField val "id"), ("name", getField val "name"),
       ("code", getField val "code"), ("type", getField val "type")])

/-- Per-entry transform of `ValidationService._sanitize_metadata` from
service.py: primitives and wrapper-less dicts pass through unchanged and no
`value` scalar is computed. -/
def oldSanitizeItem : Meta → Except String Meta
  | .obj fields =>
      if hasField fields "value" then
        if isLiteralFalse (getField fields "is_valid") then .ok .null
        else
          match getField fields "value" with
          | some (.obj valFields) => do
              let filtered ← oldFilterEntityFields valFields
              .ok (.obj filtered)
          | some .null =>
              let minimal := keepTruthy
                [("id", getField fields "id"),
                 ("display_name", getField fields "display_name"),
                 ("email", getField fields "email")]
              if minimal.isEmpty then .ok .null else .ok (.obj minimal)
          | some v => .ok v
          | none => .ok .null
      else .ok (.obj fields)
  | item => .ok item

/-- `ValidationService._sanitize_metadata` from service.py. -/
def oldSanitizeMetadata (raw : List (String × Meta)) (allowed : Option (List String)) :
    Except String (List (String × Meta)) :=
  match raw with
  | [] => .ok []
  | (k, item) :: rest =>
      if allowedOk allowed k then do
        let v ← oldSanitizeItem item
        let tail ← oldSanitizeMetadata rest allowed
        .ok ((k, v) :: tail)
      else oldSanitizeMetadata rest allowed

/-- A document row as the stale `confirm_validation` reads and writes it. -/
structure OldDoc where
  owner_id : String
  status : String
  validated_metadata : List (String × Meta)
  integrity_warnings : List String
  is_locked : Bool
  manually_validated_at : Option Nat
deriving Repr

/-- The graph state used by the stale `ValidationService` in service.py. -/
structure OldDb where
  documents : List (String × OldDoc)
  usaEsquema : List (String × String)
  schemaFields : List (String × List String)
  docBelongsTo : List (String × String)
  referencesEdges : List (String × String)
  createdUsers : List (Option String × Option String × Option String)
  createdEntities : List (String × String × Meta)
  keySeq : Nat
deriving Repr

/-- `ValidationService._get_schema_for_document`: the first schema reached
over `usa_esquema`, as its list of field keys. -/
def oldGetSchemaFields (db : OldDb) (docId : String) : Option (List String) :=
  match db.usaEsquema.find? (fun e => e.1 == docId) with
  | some e =>
      match db.schemaFields.find? (fun s => s.1 == e.2) with
      | some s => some s.2
      | none => none
  | none => none

/-- `ValidationService._create_new_user_node` from service.py: split the
display name, insert into `dms_users`, return the store-generated key. -/
def oldCreateUserNode (db : OldDb) (displayName : String) (email : Option String) :
    OldDb × String :=
  let parts := pySplitWs (pyStrip displayName)
  let firstName := parts.head? |>.getD displayName
  let lastName := if parts.length > 1 then some (String.intercalate " " (parts.drop 1)) else none
  let newKey := "k" ++ toString db.keySeq
  ({ db with createdUsers := db.createdUsers ++ [(some firstName, lastName, email)],
             keySeq := db.keySeq + 1 }, newKey)

/-- `ValidationService._create_new_entity_node` from service.py. -/
def oldCreateEntityNode (db : OldDb) (name : String) (typeStr : Meta) :
    OldDb × String :=
  let collection := (oldMapTypeToCollection typeStr).getD "entities"
  let newKey := "k" ++ toString db.keySeq
  ({ db with createdEntities := db.createdEntities ++ [(collection, name, typeStr)],
             keySeq := db.keySeq + 1 }, newKey)

/-- One iteration of `ValidationService._ensure_entities_exist` from
service.py: objects with a name but no id get a vertex created on the fly. -/
def oldEnsureEntry (db : OldDb) (key : String) (item : Meta) :
    OldDb × Except String (String × Meta) :=
  match item with
  | .obj fields =>
      match getField fields "value" with
      | some (.obj valObj) =>
          let entityId := getField valObj "id"
          let nameV := pyOrOpt (getField valObj "name") (getField valObj "display_name")
          let typeV := (getField valObj "type").getD .null
          if !optTruthy entityId && optTruthy nameV then
            match nameV with
            | some (.str name) =>
                let isUserLit := match typeV with
                  | .str t => t == "user" || t == "person" || t == "usuario"
                  | _ => false
                if !typeV.truthy || isUserLit then
                  let emailV := match getField valObj "email" with
                    | some (.str e) => some e
                    | _ => none
                  let (db1, newId) := oldCreateUserNode db name emailV
                  let newVal := popField (popField
                    (setField (setField (setField valObj "id" (.str newId))
                      "type" (.str "user")) "display_name" (.str name))
                    "first_name") "last_name"
                  (db1, .ok (key, .obj (setField fields "value" (.obj newVal))))
                else
                  let (db1, newId) := oldCreateEntityNode db name typeV
                  let newVal := setField valObj "id" (.str newId)
                  (db1, .ok (key, .obj (setField fields "value" (.obj newVal))))
            | _ => (db, .error "TypeError")
          else (db, .ok (key, item))
      | _ => (db, .ok (key, item))
  | _ => (db, .ok (key, item))

/-- `ValidationService._ensure_entities_exist` from service.py. -/
def oldEnsureEntitiesExist (db : OldDb) (metadata : List (String × Meta)) :
    OldDb × Except String (List (String × Meta)) :=
  match metadata with
  | [] => (db, .ok [])
  | (key, item) :: rest =>
      let (db1, res) := oldEnsureEntry db key item
      match res with
      | .error e => (db1, .error e)
      | .ok entry =>
          let (db2, tail) := oldEnsureEntitiesExist db1 rest
          match tail with
          | .error e => (db2, .error e)
          | .ok entries => (db2, .ok (entry :: entries))

/-- The single-document UPDATE issued by the stale `confirm_validation`. -/
def oldApplyConfirmUpdate (db : OldDb) (docId : String)
    (cleanMetadata : List (String × Meta)) (now : Nat) : OldDb :=
  { db with documents := db.documents.map (fun kv =>
      if kv.1 == docId then
        (kv.1, { kv.2 with
          validated_metadata := cleanMetadata,
          status := "confirmed",
          integrity_warnings := [],
          manually_validated_at := some now,
          is_locked := true })
      else kv) }

/-- `ValidationService._add_semantic_relation` from service.py: skip when the
entity is a 1-hop `belongs_to` neighbour of the document, else upsert a
`references` edge keyed by its endpoints. -/
def oldAddSemanticRelation (db : OldDb) (taskId entityId : String) : OldDb :=
  if db.docBelongsTo.any (fun e => e.1 == taskId && e.2 == entityId) then db
  else if db.referencesEdges.any (fun e => e.1 == taskId && e.2 == entityId) then db
  else { db with referencesEdges := db.referencesEdges ++ [(taskId, entityId)] }

/-- Step 6 of the stale `confirm_validation`: semantic relations for every
sanitized dict entry with a truthy id. -/
def oldAddSemanticRelations (db : OldDb) (taskId : String)
    (cleanMetadata : List (String × Meta)) : OldDb :=
  cleanMetadata.foldl
    (fun acc kv =>
      match kv.2 with
      | .obj fields =>
          if optTruthy (getField fields "id") then
            match getField fields "id" with
            | some (.str eid) => oldAddSemanticRelation acc taskId eid
            | _ => acc
          else acc
      | _ => acc) db

/-- `ValidationService.confirm_validation` from service.py, the function the
service instance behind the confirm endpoint actually defines: ensure entities,
read the schema, sanitize, update the document and add `references` edges.
It receives no caller identity and checks no ownership. -/
def oldConfirmValidation (db : OldDb) (taskId : String)
    (rawMetadata : List (String × Meta)) (now : Nat) : OldDb × Except String Unit :=
  let (db1, ensured) := oldEnsureEntitiesExist db rawMetadata
  match ensured with
  | .error e => (db1, .error e)
  | .ok metadataWithIds =>
      let allowed := oldGetSchemaFields db1 taskId
      match oldSanitizeMetadata metadataWithIds allowed with
      | .error e => (db1, .error e)
      | .ok cleanMetadata =>
          let db2 := oldApplyConfirmUpdate db1 taskId cleanMetadata now
          let db3 := oldAddSemanticRelations db2 taskId cleanMetadata
          (db3, .ok ())

-- ---------------------------------------------------------------------
-- src/features/validation/integrity_service.py
-- ---------------------------------------------------------------------

/-- JSON string quoting for `json.dumps(..., ensure_ascii=False)`; quotes and
backslashes are escaped, other characters pass through. -/
def jsonQuote (s : String) : String :=
  "\"" ++ String.join (s.data.map (fun c =>
    if c == '\\' then "\\\\"
    else if c == '"' then "\\\""
    else String.singleton c)) ++ "\""

/-- Stable insertion of a rendered field into a key-sorted list. -/
def insertByKey (kv : String × String) : List (String × String) → List (String × String)
  | [] => [kv]
  | kv0 :: rest =>
      if kv.1 < kv0.1 then kv :: kv0 :: rest else kv0 :: insertByKey kv rest

/-- `sorted(...)` by key over rendered fields. -/
def sortByKey (l : List (String × String)) : List (String × String) :=
  l.foldr insertByKey []

/-- Comma-join with compact separators. -/
def joinComma (l : List String) : String :=
  String.intercalate "," l

mutual
/-- `json.dumps(data, sort_keys=True, separators=(",", ":"), ensure_ascii=False)`
over `Meta` values. -/
def canonicalJson : Meta → String
  | .null => "null"
  | .bool b => if b then "true" else "false"
  | .num n => toString n
  | .str s => jsonQuote s
  | .arr xs => "[" ++ joinComma (canonicalJsonList xs) ++ "]"
  | .obj fs =>
      "\x7b" ++ joinComma ((sortByKey (canonicalJsonFields fs)).map
        (fun kv => jsonQuote kv.1 ++ ":" ++ kv.2)) ++ "\x7d"

def canonicalJsonList : List Meta → List String
  | [] => []
  | x :: rest => canonicalJson x :: canonicalJsonList rest

def canonicalJsonFields : List (String × Meta) → List (String × String)
  | [] => []
  | (k, v) :: rest => (k, canonicalJson v) :: canonicalJsonFields rest
end

/-- The cryptographic primitives of `IntegrityService`, kept abstract:
`sha256` of a UTF-8 text, `objectSha256` of the bytes currently stored at a
path, and `hmacSign` with the configured secret. -/
structure HashModel where
  sha256 : String → String
  objectSha256 : String → String
  hmacSign : String → String

/-- `IntegrityService._hash_json`: SHA-256 of the canonical JSON. -/
def hashJson (h : HashModel) (data : Meta) : String :=
  h.sha256 (canonicalJson data)

/-- The `hashes` sub-object of the integrity manifest. -/
structure ManifestHashes where
  validated_metadata_sha256 : String
  pdf_sha256 : Option String
deriving Repr

/-- The integrity manifest built by `build_integrity_payload`. -/
structure Manifest where
  doc_id : String
  confirmed_by : String
  confirmed_at : String
  keep_original : Bool
  selected_pdf_path : Option String
  hashes : ManifestHashes
  signature_algorithm : String
deriving Repr

/-- Canonical JSON of the manifest: keys in sorted order with compact
separators, exactly as `json.dumps(manifest, sort_keys=True, ...)` yields. -/
def canonicalManifest (m : Manifest) : String :=
  "\x7b\"confirmed_at\":" ++ jsonQuote m.confirmed_at ++
    ",\"confirmed_by\":" ++ jsonQuote m.confirmed_by ++
    ",\"doc_id\":" ++ jsonQuote m.doc_id ++
    ",\"hashes\":\x7b\"pdf_sha256\":" ++
      (match m.hashes.pdf_sha256 with
       | some s => jsonQuote s
       | none => "null") ++
    ",\"validated_metadata_sha256\":" ++ jsonQuote m.hashes.validated_metadata_sha256 ++
    "\x7d,\"keep_original\":" ++ (if m.keep_original then "true" else "false") ++
    ",\"selected_pdf_path\":" ++
      (match m.selected_pdf_path with
       | some s => jsonQuote s
       | none => "null") ++
    ",\"signature_algorithm\":" ++ jsonQuote m.signature_algorithm ++ "\x7d"

/-- The stored `integrity` attribute: manifest and signature. -/
structure IntegrityPayload where
  manifest : Manifest
  manifest_signature : String
deriving Repr

/-- Truthiness of an optional string (`if selected_pdf_path`). -/
def optStrTruthy : Option String → Bool
  | none => false
  | some s => s != ""

/-- `IntegrityService.build_integrity_payload` from integrity_service.py:
hash the canonical JSON of the metadata and the selected PDF bytes, assemble the
manifest, and sign its canonical JSON with HMAC-SHA256. -/
def buildIntegrityPayload (h : HashModel) (docId : String) (validatedMetadata : Meta)
    (confirmedBy : String) (keepOriginal : Bool) (selectedPdfPath : Option String)
    (confirmedAt : String) : IntegrityPayload :=
  let metadataHash := hashJson h validatedMetadata
  let pdfHash := if optStrTruthy selectedPdfPath then
      (selectedPdfPath.map h.objectSha256) else none
  let manifest : Manifest :=
    { doc_id := docId
      confirmed_by := confirmedBy
      confirmed_at := confirmedAt
      keep_original := keepOriginal
      selected_pdf_path := selectedPdfPath
      hashes :=
        { validated_metadata_sha256 := metadataHash
          pdf_sha256 := pdfHash }
      signature_algorithm := "HMAC-SHA256" }
  { manifest := manifest
    manifest_signature := h.hmacSign (canonicalManifest manifest) }

/-- The verification report returned by `verify_integrity_payload`. -/
structure IntegrityReport where
  is_valid : Bool
  signature_valid : Bool
  metadata_hash_valid : Bool
  pdf_hash_valid : Bool
  selected_pdf_path : Option String
  message : String
deriving Repr

/-- Python `a or b` on optional strings (used for the pdf-path fallback). -/
def pyOrStr (a b : Option String) : Option String :=
  if optStrTruthy a then a else b

/-- `validated_metadata or {}`. -/
def metaOrEmptyObj (m : Meta) : Meta :=
  if m.truthy then m else .obj []

/-- `IntegrityService.verify_integrity_payload` from integrity_service.py:
without a manifest or signature the report is all-false; otherwise the HMAC
is recomputed over the canonical JSON of the stored manifest and both hashes are
recomputed and compared. -/
def verifyIntegrityPayload (h : HashModel) (validatedMetadata : Meta)
    (storagePdfPath : Option String) (manifest : Option Manifest)
    (storedSignature : Option String) : IntegrityReport :=
  match manifest, storedSignature with
  | some m, some sig =>
      if sig == "" then
        { is_valid := false, signature_valid := false, metadata_hash_valid := false
          pdf_hash_valid := false, selected_pdf_path := none
          message := "No existe manifiesto/firma de integridad para verificar." }
      else
        let recalculated := h.hmacSign (canonicalManifest m)
        let signatureValid := recalculated == sig
        let expectedMetadataHash := m.hashes.validated_metadata_sha256
        let currentMetadataHash := hashJson h (metaOrEmptyObj validatedMetadata)
        let metadataHashValid := expectedMetadataHash == currentMetadataHash
        let expectedPdfHash := m.hashes.pdf_sha256
        let selectedPdfPath := pyOrStr m.selected_pdf_path storagePdfPath
        let currentPdfHash := if optStrTruthy selectedPdfPath then
            (selectedPdfPath.map h.objectSha256) else none
        let pdfHashValid := expectedPdfHash == currentPdfHash
        let isValid := signatureValid && metadataHashValid && pdfHashValid
        { is_valid := isValid, signature_valid := signatureValid
          metadata_hash_valid := metadataHashValid, pdf_hash_valid := pdfHashValid
          selected_pdf_path := selectedPdfPath
          message := if isValid then "Integridad verificada correctamente."
            else "Fallo en verificacion de integridad." }
  | _, _ =>
      { is_valid := false, signature_valid := false, metadata_hash_valid := false
        pdf_hash_valid := false, selected_pdf_path := none
        message := "No existe manifiesto/firma de integridad para verificar." }

-- ---------------------------------------------------------------------
-- src/features/validation/archive_service.py
-- ---------------------------------------------------------------------

/-- Characters kept by the slug cleaner (`[a-z0-9\-_]` after lowering). -/
def slugKeep (c : Char) : Bool :=
  (c ≥ 'a' && c ≤ 'z') || (c ≥ '0' && c ≤ '9') || c == '-' || c == '_'

/-- Replace each maximal whitespace run by a single dash
(`re.sub(r"\s+", "-", ...)`). -/
def dashRunsAux : Bool → List Char → List Char
  | _, [] => []
  | inRun, c :: rest =>
      if isPySpace c then
        if inRun then dashRunsAux true rest else '-' :: dashRunsAux true rest
      else c :: dashRunsAux false rest

/-- Entry point of the whitespace-run replacement. -/
def dashWhitespaceRuns (l : List Char) : List Char :=
  dashRunsAux false l

/-- `ArchiveService._slug` from archive_service.py. -/
def slug (value : Option String) : String :=
  match value with
  | none => "na"
  | some v =>
      if v == "" then "na"
      else
        let cleaned := (dashWhitespaceRuns (pyLower (pyStrip v)).data).filter slugKeep
        if cleaned.isEmpty then "na" else String.mk cleaned

/-- Remove the first occurrence of `pat` from a character list
(Python `str.replace(pat, "", 1)`). -/
def removeFirstSub (pat : List Char) : List Char → List Char
  | [] => []
  | c :: rest =>
      if pat.isPrefixOf (c :: rest) then (c :: rest).drop pat.length
      else c :: removeFirstSub pat rest

/-- `ArchiveService._object_name`: strip the first occurrence of
`"<bucket>/"` from a storage path. -/
def objectName (bucket storagePath : String) : String :=
  String.mk (removeFirstSub (bucket ++ "/").data storagePath.data)

/-- The document snapshot fields `_build_archive_prefix` reads. -/
structure ArchiveSnapshot where
  key : String
  naming_code_path : Option String
  naming_name_path : Option String
  context_entity_name : Option String
  context_required_doc_code : Option String
  context_required_doc_name : Option String
  process_code : Option String
  process_name : Option String
deriving Repr

/-- Python `str.split(sep)` for a one-character separator. -/
def splitOnChar (sep : Char) : List Char → List (List Char)
  | [] => [[]]
  | c :: rest =>
      if c == sep then [] :: splitOnChar sep rest
      else
        match splitOnChar sep rest with
        | h :: t => (c :: h) :: t
        | [] => [[c]]

/-- Python `str.split("/")`. -/
def pySplitSlash (s : String) : List String :=
  (splitOnChar '/' s.data).map String.mk

/-- `ArchiveService._build_archive_prefix` from archive_service.py. -/
def buildArchiveDir (snap : ArchiveSnapshot) : String :=
  let codePath := (pyOrStr (pyOrStr (pyOrStr snap.naming_code_path snap.naming_name_path)
    snap.context_entity_name) (some "general")).getD "general"
  let segments0 := ((pySplitSlash codePath).filter (fun seg => pyStrip seg != "")).map
    (fun seg => slug (some seg))
  let segments1 := if segments0.isEmpty then ["general"] else segments0
  let processSeg := slug (some ((pyOrStr (pyOrStr snap.process_code snap.process_name)
    (some "sin-proceso")).getD "sin-proceso"))
  let requiredSeg := slug (some ((pyOrStr (pyOrStr snap.context_required_doc_code
    snap.context_required_doc_name) (some "sin-documento")).getD "sin-documento"))
  let segments := if segments1 ≠ [] && segments1.getLast? == some requiredSeg then
      segments1.dropLast else segments1
  "archive/" ++ String.intercalate "/" segments ++ "/" ++ processSeg ++ "/" ++
    requiredSeg ++ "/" ++ snap.key

/-- The four logical storage keys promoted by `promote_from_stage`, in the
order of the `mapping` dict in the source, with their archive file names. -/
def promotionMapping : List (String × String) :=
  [("pdf_path", "principal.pdf"), ("json_path", "metadata.json"),
   ("text_path", "extracted.txt"), ("pdf_original_path", "original.pdf")]

/-- The storage map handled by archive promotion. -/
structure StorageData where
  pdf_path : Option String
  json_path : Option String
  text_path : Option String
  pdf_original_path : Option String
deriving Repr

/-- Read one logical key of the storage map. -/
def StorageData.read (s : StorageData) : String → Option String
  | "pdf_path" => s.pdf_path
  | "json_path" => s.json_path
  | "text_path" => s.text_path
  | "pdf_original_path" => s.pdf_original_path
  | _ => none

/-- Write one logical key of the storage map. -/
def StorageData.write (s : StorageData) (key : String) (v : String) : StorageData :=
  if key == "pdf_path" then { s with pdf_path := some v }
  else if key == "json_path" then { s with json_path := some v }
  else if key == "text_path" then { s with text_path := some v }
  else if key == "pdf_original_path" then { s with pdf_original_path := some v }
  else s

/-- The result of `promote_from_stage`: the copy operations issued (source
object, destination object), the objects removed, and the updated storage map. -/
structure PromotionResult where
  copies : List (String × String)
  removes : List String
  updated : StorageData
  archiveDir : String
deriving Repr

/-- The copy loop of `promote_from_stage`: walk the mapping in order,
copy each truthy source to the archive destination, collect sources under
`stage-validate/` into a set, and rewrite the storage path. -/
def promotionLoop (bucket dir : String) :
    List (String × String) → StorageData → List (String × String) → List String →
    List (String × String) × List String × StorageData
  | [], updated, copies, stageSources => (copies, stageSources, updated)
  | (key, filename) :: rest, updated, copies, stageSources =>
      match updated.read key with
      | none => promotionLoop bucket dir rest updated copies stageSources
      | some src =>
          if src == "" then promotionLoop bucket dir rest updated copies stageSources
          else
            let srcObject := objectName bucket src
            let dstObject := dir ++ "/" ++ filename
            let copies1 := copies ++ [(srcObject, dstObject)]
            let stageSources1 :=
              if pyStartsWith srcObject "stage-validate/" && !stageSources.contains srcObject
              then stageSources ++ [srcObject] else stageSources
            promotionLoop bucket dir rest (updated.write key (bucket ++ "/" ++ dstObject))
              copies1 stageSources1

/-- `ArchiveService.promote_from_stage` from archive_service.py: copy every
present artifact to the archive path, then remove each collected
`stage-validate/` source once. -/
def promoteFromStage (bucket : String) (snap : ArchiveSnapshot)
    (storage : StorageData) : PromotionResult :=
  let dir := buildArchiveDir snap
  let (copies, stageSources, updated) :=
    promotionLoop bucket dir promotionMapping storage [] []
  { copies := copies
    removes := stageSources
    updated := updated
    archiveDir := dir }

-- ---------------------------------------------------------------------
-- src/features/ocr_updates/logic.py and pipeline/edges.py
-- ---------------------------------------------------------------------

/-- One edge upsert issued through `_create_safe_edge` / `create_safe_edge`:
target edge collection, deterministic `_key`, `_from` and `_to`. -/
structure EdgeUpsert where
  collection : String
  key : String
  fromId : String
  toId : String
deriving Repr, DecidableEq

/-- The structural-edge step of `process_ocr_result` in ocr_updates/logic.py
(lines 87-111), the function the Kafka consumer imports: one `usa_esquema`
edge when a schema id is present and one legacy `pertenece_a` edge into
`entidades` when a context entity id is present; the required document id
of the message is never read. -/
def legacyStructuralEdges (taskId : String) (schemaId contextEntityId : Option String) :
    List EdgeUpsert :=
  (match schemaId with
   | some s =>
       if s != "" then
         [{ collection := "usa_esquema", key := taskId ++ "_" ++ s,
            fromId := "documents/" ++ taskId, toId := "meta_schemas/" ++ s }]
       else []
   | none => []) ++
  (match contextEntityId with
   | some c =>
       if c != "" then
         [{ collection := "pertenece_a", key := taskId ++ "_" ++ c,
            fromId := "documents/" ++ taskId, toId := "entidades/" ++ c }]
       else []
   | none => [])

/-- `create_structural_edges` from ocr_updates/pipeline/edges.py: the three
structural edges of the refactored pipeline, in order. -/
def createStructuralEdges (taskId : String)
    (schemaId contextEntityId requiredDocId : Option String) : List EdgeUpsert :=
  (match schemaId with
   | some s =>
       if s != "" then
         [{ collection := "usa_esquema", key := taskId ++ "_" ++ s,
            fromId := "documents/" ++ taskId, toId := "meta_schemas/" ++ s }]
       else []
   | none => []) ++
  (match contextEntityId with
   | some c =>
       if c != "" then
         [{ collection := "file_located_in", key := taskId ++ "_" ++ c,
            fromId := "documents/" ++ taskId, toId := "entities/" ++ c }]
       else []
   | none => []) ++
  (match requiredDocId with
   | some r =>
       if r != "" then
         [{ collection := "complies_with", key := taskId ++ "_" ++ r,
            fromId := "documents/" ++ taskId, toId := "required_documents/" ++ r }]
       else []
   | none => [])

/-- One entry of `validated_metadata` as `_validate_metadata_strict` in
ocr_updates/logic.py emits it: every branch sets a boolean `is_valid`. -/
structure ValidatedItem where
  value : Meta
  is_valid : Bool
  source : String
  message : Option String
deriving Repr

/-- The status step of `process_ocr_result` (logic.py lines 48-50):
`"attention_required"` when any validated field is invalid or any warning
exists, `"validated"` otherwise. -/
def ocrStatus (validatedMetadata : List (String × ValidatedItem))
    (integrityWarnings : List String) : String :=
  let hasInvalidFields := validatedMetadata.any (fun kv => !kv.2.is_valid)
  if hasInvalidFields || !integrityWarnings.isEmpty then "attention_required"
  else "validated"

-- ---------------------------------------------------------------------
-- src/features/search/dependencies.py, service.py, repository.py
-- ---------------------------------------------------------------------

/-- `VERIFICATION_STATUSES` from search/dependencies.py. -/
def VERIFICATION_STATUSES : List String := ["attention_required"]

/-- Ascending stable insertion, for Python `sorted(...)` over strings. -/
def insertAsc (x : String) : List String → List String
  | [] => [x]
  | y :: ys => if x ≤ y then x :: y :: ys else y :: insertAsc x ys

/-- Python `sorted(...)` over strings. -/
def pySorted (l : List String) : List String :=
  l.foldr insertAsc []

/-- `sorted(set(approve_teams) | set(reject_teams))`. -/
def sortedUnion (a b : List String) : List String :=
  pySorted ((a ++ b).eraseDups)

/-- `resolve_status_and_teams` from search/dependencies.py: default the
status, protect verification statuses behind workflow scopes (403 on an
empty union), and fall back to read scopes otherwise. -/
def resolveStatusAndTeams (status : Option String)
    (readTeams approveTeams rejectTeams : List String) :
    Except Nat (String × List String) :=
  let st := match status with
    | some s => if s == "" then "attention_required" else s
    | none => "attention_required"
  if VERIFICATION_STATUSES.contains st then
    if approveTeams.contains "*" || rejectTeams.contains "*" then .ok (st, ["*"])
    else
      let allowedWorkflowTeams := sortedUnion approveTeams rejectTeams
      if allowedWorkflowTeams.isEmpty then .error 403
      else .ok (st, allowedWorkflowTeams)
  else
    if readTeams.contains "*" then .ok (st, ["*"])
    else if readTeams.isEmpty then .error 403
    else .ok (st, readTeams)

/-- An `entities` row as `_resolve_team_codes_to_uuids` reads it. -/
structure SearchEntity where
  key : String
  type : String
  code : Option String
  code_numeric : Option String
deriving Repr

/-- A document row as the stale `SearchService.search_documents` reads it. -/
structure SearchDoc where
  key : String
  owner_id : String
  status : String
  created_at : Nat
deriving Repr

/-- The graph slice the stale search service queries. -/
structure SearchDb where
  entities : List SearchEntity
  documents : List SearchDoc
  file_located_in : List (String × String)
  belongs_to : List (String × String)
  complies_with : List (String × String)
  catalog_belongs_to : List (String × String)
deriving Repr

/-- Split at the first colon, like Python `split(":", 1)` guarded by
`":" in team`. -/
def splitFirstColon : List Char → Option (List Char × List Char)
  | [] => none
  | c :: rest =>
      if c == ':' then some ([], rest)
      else
        match splitFirstColon rest with
        | some (a, b) => some (c :: a, b)
        | none => none

/-- Split a team code on the first `":"` (Python `split(":", 1)`). -/
def splitTeamCode (team : String) : Option (String × String) :=
  match splitFirstColon team.data with
  | some (a, b) => some (String.mk a, String.mk b)
  | none => none

/-- The `type_map` of `_resolve_team_codes_to_uuids`. -/
def teamTypeMap (p : String) : Option String :=
  if p == "CARR" then some "carrera"
  else if p == "FAC" then some "facultad"
  else if p == "DEP" then some "departamento"
  else none

/-- `SearchService._resolve_team_codes_to_uuids` from search/service.py:
translate `PREFIX:code` scopes into keys of entities whose `type` matches
and whose `code` or `code_numeric` equals the code. -/
def resolveTeamCodesToUuids (db : SearchDb) (allowedTeams : List String) :
    List String :=
  if allowedTeams.isEmpty || allowedTeams.contains "*" then []
  else
    let criteria := allowedTeams.foldr
      (fun team acc =>
        match splitTeamCode team with
        | some (p, code) =>
            match teamTypeMap p with
            | some t => (t, code) :: acc
            | none => acc
        | none => acc) []
    criteria.flatMap (fun c =>
      (db.entities.filter (fun e =>
        e.type == c.1 && (e.code == some c.2 || e.code_numeric == some c.2))).map (·.key))

/-- Outbound neighbours over an edge list. -/
def outNeighbors (edges : List (String × String)) (v : String) : List String :=
  (edges.filter (fun e => e.1 == v)).map (·.2)

/-- Vertices reachable in 1 to `n` outbound hops. -/
def reachAtMost (edges : List (String × String)) : Nat → String → List String
  | 0, _ => []
  | n + 1, v =>
      let ns := outNeighbors edges v
      ns ++ ns.flatMap (reachAtMost edges n)

/-- The security filter of the stale `search_documents`: some entity within
1..2 outbound hops over `file_located_in` and `belongs_to` lies in the
resolved owner keys. -/
def securityFilterOk (db : SearchDb) (validOwnerIds : List String)
    (doc : SearchDoc) : Bool :=
  (reachAtMost (db.file_located_in ++ db.belongs_to) 2 doc.key).any
    (fun k => validOwnerIds.contains k)

/-- The hierarchical entity filter (1..5 hops). -/
def entityFilterOk (db : SearchDb) (entityId : String) (doc : SearchDoc) : Bool :=
  (reachAtMost (db.file_located_in ++ db.belongs_to) 5 doc.key).contains entityId

/-- The hierarchical process filter (1..6 hops over the catalog). -/
def processFilterOk (db : SearchDb) (processId : String) (doc : SearchDoc) : Bool :=
  (reachAtMost (db.complies_with ++ db.catalog_belongs_to) 6 doc.key).contains processId

/-- Descending insertion by `created_at` (`SORT doc.created_at DESC`). -/
def insertByCreatedDesc (d : SearchDoc) : List SearchDoc → List SearchDoc
  | [] => [d]
  | e :: rest =>
      if e.created_at ≤ d.created_at then d :: e :: rest
      else e :: insertByCreatedDesc d rest

/-- Sort documents by `created_at` descending. -/
def sortByCreatedDesc (l : List SearchDoc) : List SearchDoc :=
  l.foldr insertByCreatedDesc []

/-- A page of search results. -/
structure SearchPage where
  items : List SearchDoc
  total : Nat
deriving Repr

/-- `SearchService.search_documents` from search/service.py, the function
the documents router invokes: it accepts no caller identity and builds no
owner filter; with team scopes and no `"*"`, unresolvable scopes yield an
empty page, and an empty scope list makes the filter block reference the
never-assigned `valid_owner_ids` (an `UnboundLocalError` caught as a 500). -/
def searchDocumentsLive (db : SearchDb) (page pageSize : Nat)
    (entityId processId status : Option String)
    (allowedTeams : Option (List String)) : Except String SearchPage :=
  let resolved :=
    match allowedTeams with
    | some teams =>
        if !teams.isEmpty && !teams.contains "*"
        then some (resolveTeamCodesToUuids db teams) else none
    | none => none
  match resolved with
  | some [] => .ok { items := [], total := 0 }
  | _ =>
      let teams := allowedTeams.getD []
      if !teams.contains "*" then
        match resolved with
        | none => .error "UnboundLocalError"
        | some validOwnerIds =>
            let hits := db.documents.filter (fun doc =>
              securityFilterOk db validOwnerIds doc &&
              (match status with
               | some st => if st != "" then doc.status == st else true
               | none => true) &&
              (match entityId with
               | some e => if e != "" then entityFilterOk db e doc else true
               | none => true) &&
              (match processId with
               | some p => if p != "" then processFilterOk db p doc else true
               | none => true))
            let sorted := sortByCreatedDesc hits
            let offset := (page - 1) * pageSize
            .ok { items := (sorted.drop offset).take pageSize, total := sorted.length }
      else
        let hits := db.documents.filter (fun doc =>
          (match status with
           | some st => if st != "" then doc.status == st else true
           | none => true) &&
          (match entityId with
           | some e => if e != "" then entityFilterOk db e doc else true
           | none => true) &&
          (match processId with
           | some p => if p != "" then processFilterOk db p doc else true
           | none => true))
        let sorted := sortByCreatedDesc hits
        let offset := (page - 1) * pageSize
        .ok { items := (sorted.drop offset).take pageSize, total := sorted.length }

/-- `SearchRepository._metadata_string_distance` from search/repository.py:
fuzziness from the trimmed value length. -/
def metadataStringDistance (value : String) : Nat :=
  let normalizedLength := (pyStrip value).length
  if normalizedLength ≤ 6 then 1
  else if normalizedLength ≤ 16 then 2
  else 3

/-- A clause produced by `_add_metadata_filters`: range bounds, the
`CONTAINS(...) OR LEVENSHTEIN_DISTANCE(...) <= distance` combination for
strings, or plain equality. -/
inductive MetaClause where
  | geClause (key : String) (bound : Meta)
  | leClause (key : String) (bound : Meta)
  | containsOrLev (key : String) (value : String) (distance : Nat)
  | eqClause (key : String) (value : Meta)
deriving Repr

/-- `SearchRepository._add_metadata_filters` from search/repository.py:
one clause group per metadata filter entry, in order. -/
def addMetadataFilters (metadataFilters : List (String × Meta)) : List MetaClause :=
  metadataFilters.flatMap (fun kv =>
    match kv.2 with
    | .obj fields =>
        (match getField fields "gte" with
         | some g => [MetaClause.geClause kv.1 g]
         | none => []) ++
        (match getField fields "lte" with
         | some l => [MetaClause.leClause kv.1 l]
         | none => [])
    | .str s => [MetaClause.containsOrLev kv.1 s (metadataStringDistance s)]
    | v => [MetaClause.eqClause kv.1 v])

-- ---------------------------------------------------------------------
-- Concrete fixtures used by the closed evaluations below
-- ---------------------------------------------------------------------

/-- A store with one document owned by user `u1`, awaiting confirmation. -/
def exOldDb : OldDb :=
  { documents := [("doc1",
      { owner_id := "u1", status := "validated", validated_metadata := []
        integrity_warnings := ["w"], is_locked := false, manually_validated_at := none })]
    usaEsquema := [], schemaFields := [], docBelongsTo := [], referencesEdges := []
    createdUsers := [], createdEntities := [], keySeq := 0 }

/-- A users-service instance whose operations leave `entities` untouched,
like `UsersService` in users_service.py (it only reads and writes
`dms_users`). -/
def exUsers : UsersModel :=
  { findOrCreateUser := fun db _ _ _ => (db, none)
    createNewUserNode := fun db _ _ => ({ db with dmsUsers := db.dmsUsers ++ ["u-new"] }, "u-new")
    verifyUserExists := fun db id => match id with
      | .str s => db.dmsUsers.contains s
      | _ => false
    buildMetadataFromUser := fun u => u }

/-- A graph with one entity and no users. -/
def exGraphDb : GraphDb :=
  { entities := [{ key := "e9", code_numeric := some (.str "213.9") }], dmsUsers := [] }

/-- A proposed metadata map whose `career` field has no entity id. -/
def exBadCareer : List (String × Meta) :=
  [("career", .obj [("value", .obj [("name", .str "TDI"), ("type", .str "career")])])]

/-- Schema entity types for `exBadCareer`. -/
def exCareerTypes : SchemaTypes :=
  fun k => if k == "career" then some "career" else none

/-- The raw metadata of the C4 counterexample: an object carrying `is_valid`
and `source` but no `value` key, and a wrapper whose object value has only a
`type` attribute. -/
def exC4Raw : List (String × Meta) :=
  [("k", .obj [("is_valid", .bool false), ("source", .str "ocr_raw"), ("name", .str "X")]),
   ("j", .obj [("value", .obj [("type", .str "career")])])]

/-- What `sanitize_metadata` returns on `exC4Raw`. -/
def exC4Out : List (String × Meta) :=
  [("k", .obj [("is_valid", .bool false), ("source", .str "ocr_raw"),
               ("name", .str "X"), ("value", .str "X")]),
   ("j", .obj [("type", .str "career"), ("value", .str "career")])]

/-- A well-formed wrapper map for the C4 witness. -/
def exC4Good : List (String × Meta) :=
  [("a", .obj [("value", .obj [("name", .str "Acta"), ("code", .str "A-1")]),
               ("is_valid", .bool true), ("source", .str "ocr_raw")])]

/-- A hash model for the witnesses: injective enough on the inputs used. -/
def exHashes : HashModel :=
  { sha256 := fun s => "sha-" ++ s
    objectSha256 := fun p => "obj-" ++ p
    hmacSign := fun s => "sig-" ++ s }

/-- The search graph of scenario S5: entity `e9` is the carrera `TDI`,
document `T1` is owned by `u1` and located in `e9`. -/
def exSearchDb : SearchDb :=
  { entities := [{ key := "e9", type := "carrera", code := some "TDI", code_numeric := none }]
    documents := [{ key := "T1", owner_id := "u1", status := "attention_required", created_at := 5 }]
    file_located_in := [("T1", "e9")]
    belongs_to := []
    complies_with := []
    catalog_belongs_to := [] }

/-- The keys and owners of a result page (empty on error). -/
def pageOwners (r : Except String SearchPage) : List (String × String) :=
  match r with
  | .ok page => page.items.map (fun d => (d.key, d.owner_id))
  | .error _ => []

/-- The archive snapshot of scenario S3. -/
def exArchiveSnap : ArchiveSnapshot :=
  { key := "task_1", naming_code_path := some "ULEAM / FCVT / TDI"
    naming_name_path := none, context_entity_name := none
    context_required_doc_code := some "PAP-01-002", context_required_doc_name := none
    process_code := some "PAP", process_name := none }

/-- A storage map where `keep_original` made two logical keys point at the
same staged object, plus one source outside the staging area. -/
def exStorage : StorageData :=
  { pdf_path := some "documents-storage/stage-validate/u1/task_1/pdf_original_path_document.pdf"
    json_path := some "documents-storage/archive/old/task_1/metadata.json"
    text_path := none
    pdf_original_path := some "documents-storage/stage-validate/u1/task_1/pdf_original_path_document.pdf" }

/-- The rejection condition of the non-user branch of
`ensure_entities_exist`: a dict item whose inner object is not classified as
a user and whose id is falsy or unknown to the expected collection. -/
def nonUserStructuralReject (db : GraphDb) (item : Meta) (expected : Option String) : Prop :=
  ∃ fields typeStr, item = .obj fields ∧
    entryTypeStr (entryValObj fields) expected = .ok typeStr ∧
    isUserEntry (entryValObj fields) typeStr = false ∧
    (optTruthy (getField (entryValObj fields) "id") = false ∨
      ∃ eid, getField (entryValObj fields) "id" = some eid ∧
        dbHas db ((mapTypeToCollection typeStr).getD "entities") eid = false)

/-- The keys `filter_entity_fields` can emit. -/
def domainKeys : List String := ["id", "display_name", "email", "name", "code", "type"]
theorem userFallback_preserves_entities (us : UsersModel)
    (hfind : ∀ (db0 : GraphDb) a b c, ((us.findOrCreateUser db0 a b c).1).entities = db0.entities)
    (hcreate : ∀ (db0 : GraphDb) a b, ((us.createNewUserNode db0 a b).1).entities = db0.entities)
    (db : GraphDb) (key : String) (fields valObj : List (String × Meta)) :
    ((userFallback us db key fields valObj).1).entities = db.entities := by
  unfold userFallback
  cases hf : (us.findOrCreateUser db
      (pyOrOpt (getField valObj "name") (getField valObj "display_name"))
      (getField valObj "email") (getField valObj "guid_ms")).2 with
  | some ud =>
      simp only [hf]
      exact hfind db _ _ _
  | none =>
      simp only [hf]
      rw [hcreate, hfind]

theorem structuralEntityCheck_preserves_entities (db : GraphDb) (key : String)
    (fields valObj : List (String × Meta)) (typeStr : Option String) :
    ((structuralEntityCheck db key fields valObj typeStr).1).entities = db.entities := by
  simp only [structuralEntityCheck]
  split
  · rfl
  · split
    · rfl
    · split
      · rfl
      · split
        · split
          · rfl
          · rfl
        · rfl

theorem ensureEntry_preserves_entities (us : UsersModel)
    (hfind : ∀ (db0 : GraphDb) a b c, ((us.findOrCreateUser db0 a b c).1).entities = db0.entities)
    (hcreate : ∀ (db0 : GraphDb) a b, ((us.createNewUserNode db0 a b).1).entities = db0.entities)
    (db : GraphDb) (key : String) (item : Meta) (expected : Option String) :
    ((ensureEntry us db key item expected).1).entities = db.entities := by
  cases item with
  | obj fields =>
      simp only [ensureEntry]
      cases ht : entryTypeStr (entryValObj fields) expected with
      | error e => rfl
      | ok typeStr =>
          dsimp only
          by_cases hu : isUserEntry (entryValObj fields) typeStr = true
          · simp only [hu, if_true]
            cases hid : getField (entryValObj fields) "id" with
            | some eid =>
                by_cases htr : eid.truthy = true
                · by_cases hv : us.verifyUserExists db eid = true
                  · simp [htr, hv]
                  · simp [htr, hv, userFallback_preserves_entities us hfind hcreate]
                · simp [htr, userFallback_preserves_entities us hfind hcreate]
            | none => simp [userFallback_preserves_entities us hfind hcreate]
          · rw [if_neg hu]
            exact structuralEntityCheck_preserves_entities db key fields (entryValObj fields) typeStr
  | str s =>
      simp only [ensureEntry]
      by_cases hc : (isUserType expected && pyStrip s != "") = true
      · simp only [hc, if_true]
        cases hf : (us.findOrCreateUser db (some (.str (pyStrip s))) none none).2 with
        | some ud => simp only [hf]; exact hfind db _ _ _
        | none => simp only [hf]; rw [hcreate, hfind]
      · rw [if_neg hc]
  | num n => rfl
  | bool b => rfl
  | null => rfl
  | arr xs => rfl


theorem collection_of_nonuser (t : Option String) (h : isUserType t = false) :
    (mapTypeToCollection t).getD "entities" = "entities" := by
  have hne1 : ¬ pyLower (t.getD "") = "user" := by
    intro hc
    rw [isUserType, USER_ENTITY_TYPES, hc] at h
    simp at h
  have hne2 : ¬ pyLower (t.getD "") = "person" := by
    intro hc
    rw [isUserType, USER_ENTITY_TYPES, hc] at h
    simp at h
  unfold mapTypeToCollection
  rw [if_neg (by simpa using hne1), if_neg (by simpa using hne2)]
  split_ifs <;> rfl

theorem dbHas_entities_congr (db db' : GraphDb) (h : db'.entities = db.entities) (m : Meta) :
    dbHas db' "entities" m = dbHas db "entities" m := by
  cases m <;> simp [dbHas, h]

theorem isUserType_false_of_entry (valObj : List (String × Meta)) (typeStr : Option String)
    (hu : isUserEntry valObj typeStr = false) : isUserType typeStr = false := by
  unfold isUserEntry at hu
  exact (Bool.or_eq_false_iff.mp hu).1

theorem nonUserStructuralReject_congr (db db' : GraphDb) (item : Meta)
    (expected : Option String) (h : db'.entities = db.entities)
    (hrej : nonUserStructuralReject db item expected) :
    nonUserStructuralReject db' item expected := by
  obtain ⟨fields, typeStr, hitem, ht, hu, hbad⟩ := hrej
  refine ⟨fields, typeStr, hitem, ht, hu, ?_⟩
  rcases hbad with hfalsy | ⟨eid, hid, hhas⟩
  · exact Or.inl hfalsy
  · refine Or.inr ⟨eid, hid, ?_⟩
    have hut : isUserType typeStr = false := isUserType_false_of_entry _ _ hu
    rw [collection_of_nonuser typeStr hut] at hhas ⊢
    rw [dbHas_entities_congr db db' h eid]
    exact hhas

theorem ensureEntry_rejects (us : UsersModel) (db : GraphDb) (key : String)
    (item : Meta) (expected : Option String)
    (hrej : nonUserStructuralReject db item expected) :
    ∃ e, (ensureEntry us db key item expected).2 = .error e := by
  obtain ⟨fields, typeStr, hitem, ht, hu, hbad⟩ := hrej
  subst hitem
  simp only [ensureEntry, ht]
  rw [if_neg (by simp [hu])]
  simp only [structuralEntityCheck]
  rcases hbad with hfalsy | ⟨eid, hid, hhas⟩
  · rw [if_pos (by simp [hfalsy])]
    exact ⟨_, rfl⟩
  · by_cases htr : optTruthy (getField (entryValObj fields) "id") = true
    · rw [if_neg (by simp [htr])]
      simp only [hid]
      rw [if_pos (by simp [hhas])]
      exact ⟨_, rfl⟩
    · rw [if_pos (by simpa using htr)]
      exact ⟨_, rfl⟩

theorem ensureEntitiesExist_preserves_entities (us : UsersModel)
    (hfind : ∀ (db0 : GraphDb) a b c, ((us.findOrCreateUser db0 a b c).1).entities = db0.entities)
    (hcreate : ∀ (db0 : GraphDb) a b, ((us.createNewUserNode db0 a b).1).entities = db0.entities) :
    ∀ (metadata : List (String × Meta)) (db : GraphDb) (etypes : SchemaTypes),
      ((ensureEntitiesExist us db metadata etypes).1).entities = db.entities := by
  intro metadata
  induction metadata with
  | nil => intro db etypes; rfl
  | cons head rest ih =>
      intro db etypes
      obtain ⟨k0, i0⟩ := head
      simp only [ensureEntitiesExist]
      cases hr : (ensureEntry us db k0 i0 (etypes k0)).2 with
      | error e =>
          have := ensureEntry_preserves_entities us hfind hcreate db k0 i0 (etypes k0)
          simpa using this
      | ok entry =>
          cases ht : (ensureEntitiesExist us (ensureEntry us db k0 i0 (etypes k0)).1 rest etypes).2 with
          | error e =>
              have h1 := ih (ensureEntry us db k0 i0 (etypes k0)).1 etypes
              have h2 := ensureEntry_preserves_entities us hfind hcreate db k0 i0 (etypes k0)
              simp only [h1, h2]
          | ok entries =>
              have h1 := ih (ensureEntry us db k0 i0 (etypes k0)).1 etypes
              have h2 := ensureEntry_preserves_entities us hfind hcreate db k0 i0 (etypes k0)
              simp only [h1, h2]

theorem ensureEntitiesExist_rejects (us : UsersModel)
    (hfind : ∀ (db0 : GraphDb) a b c, ((us.findOrCreateUser db0 a b c).1).entities = db0.entities)
    (hcreate : ∀ (db0 : GraphDb) a b, ((us.createNewUserNode db0 a b).1).entities = db0.entities) :
    ∀ (metadata : List (String × Meta)) (db : GraphDb) (etypes : SchemaTypes)
      (k : String) (item : Meta),
      (k, item) ∈ metadata → nonUserStructuralReject db item (etypes k) →
      ∃ e, (ensureEntitiesExist us db metadata etypes).2 = .error e := by
  intro metadata
  induction metadata with
  | nil =>
      intro db etypes k item hmem
      exact absurd hmem (List.not_mem_nil _)
  | cons head rest ih =>
      intro db etypes k item hmem hrej
      obtain ⟨k0, i0⟩ := head
      simp only [ensureEntitiesExist]
      rcases List.mem_cons.mp hmem with heq | hmem1
      · have hk : k0 = k := (Prod.mk.injEq _ _ _ _ ▸ heq.symm).1
        have hi : i0 = item := (Prod.mk.injEq _ _ _ _ ▸ heq.symm).2
        subst hk; subst hi
        obtain ⟨e, he⟩ := ensureEntry_rejects us db k0 i0 (etypes k0) hrej
        rw [he]
        exact ⟨e, rfl⟩
      · cases hr : (ensureEntry us db k0 i0 (etypes k0)).2 with
        | error e => exact ⟨e, rfl⟩
        | ok entry =>
            have hpres := ensureEntry_preserves_entities us hfind hcreate db k0 i0 (etypes k0)
            have hrej1 := nonUserStructuralReject_congr db
              (ensureEntry us db k0 i0 (etypes k0)).1 item (etypes k) hpres hrej
            obtain ⟨e, he⟩ := ih (ensureEntry us db k0 i0 (etypes k0)).1 etypes k item hmem1 hrej1
            rw [he]
            exact ⟨e, rfl⟩

/-- C3: during the confirmation ensure-entities step, provided the injected
users service touches only `dms_users` (as users_service.py does), the
`entities` collection is never written, and any metadata entry whose inner
object is non-user and lacks an id, or references an id absent from the
expected collection, makes `EntitiesService.ensure_entities_exist` raise, so
the request is rejected before any document update. -/
theorem claim_C3_ensure_entities_rejects_nonuser (us : UsersModel) (db : GraphDb) (metadata : List (String × Meta))
    (etypes : SchemaTypes)
    (hfind : ∀ (db0 : GraphDb) a b c, ((us.findOrCreateUser db0 a b c).1).entities = db0.entities)
    (hcreate : ∀ (db0 : GraphDb) a b, ((us.createNewUserNode db0 a b).1).entities = db0.entities) :
    ((ensureEntitiesExist us db metadata etypes).1).entities = db.entities ∧
    (∀ (k : String) (item : Meta), (k, item) ∈ metadata →
      nonUserStructuralReject db item (etypes k) →
      ∃ e, (ensureEntitiesExist us db metadata etypes).2 = .error e) := by
  constructor
  · exact ensureEntitiesExist_preserves_entities us hfind hcreate metadata db etypes
  · intro k item hmem hrej
    exact ensureEntitiesExist_rejects us hfind hcreate metadata db etypes k item hmem hrej

/-- Witness for C3 at a concrete store and metadata map. -/
theorem claim_C3_witness :
    ((ensureEntitiesExist exUsers exGraphDb exBadCareer exCareerTypes).1).entities =
      exGraphDb.entities ∧
    (∃ e, (ensureEntitiesExist exUsers exGraphDb exBadCareer exCareerTypes).2 = .error e) := by
  have h := claim_C3_ensure_entities_rejects_nonuser exUsers exGraphDb exBadCareer exCareerTypes
    (fun _ _ _ _ => rfl) (fun _ _ _ => rfl)
  refine ⟨h.1, ?_⟩
  refine h.2 "career" (.obj [("value", .obj [("name", .str "TDI"), ("type", .str "career")])])
    (by simp [exBadCareer]) ?_
  refine ⟨[("value", .obj [("name", .str "TDI"), ("type", .str "career")])],
    some "career", rfl, rfl, rfl, Or.inl rfl⟩

theorem getField_setField (l : List (String × Meta)) (k k' : String) (v : Meta) :
    getField (setField l k v) k' = if k == k' then some v else getField l k' := by
  induction l with
  | nil => rfl
  | cons head rest ih =>
      obtain ⟨k0, v0⟩ := head
      simp only [setField]
      by_cases hk0 : k0 = k
      · subst hk0
        rw [if_pos (by simp)]
        by_cases hq : k0 = k'
        · subst hq
          simp [getField]
        · simp [getField, hq]
      · rw [if_neg (by simpa using hk0)]
        by_cases hq : k0 = k'
        · subst hq
          have hne : (k == k0) = false := beq_eq_false_iff_ne.mpr (fun hc => hk0 hc.symm)
          simp [getField, hne]
        · simp only [getField]
          rw [if_neg (by simpa using hq), ih]
          by_cases hkk : k = k'
          · simp [hkk]
          · simp [hkk, hq]

theorem hasField_setField_ne (l : List (String × Meta)) (k k' : String) (v : Meta)
    (h : k ≠ k') : hasField (setField l k v) k' = hasField l k' := by
  unfold hasField
  rw [getField_setField]
  rw [if_neg (by simpa using h)]

theorem hasField_setField_self (l : List (String × Meta)) (k : String) (v : Meta) :
    hasField (setField l k v) k = true := by
  unfold hasField
  rw [getField_setField]
  simp

theorem hasField_keepSomes (l : List (String × Option Meta)) (k : String)
    (h : hasField (keepSomes l) k = true) : k ∈ l.map Prod.fst := by
  induction l with
  | nil => simp [keepSomes, hasField, getField] at h
  | cons head rest ih =>
      obtain ⟨k0, o0⟩ := head
      cases o0 with
      | some m =>
          simp only [keepSomes, List.foldr] at h
          by_cases hk : k0 = k
          · subst hk; simp
          · simp only [hasField, getField] at h
            rw [if_neg (by simpa using hk)] at h
            exact List.mem_cons.mpr (Or.inr (ih h))
      | none =>
          simp only [keepSomes, List.foldr] at h
          exact List.mem_cons.mpr (Or.inr (ih h))

theorem hasField_keepTruthy (l : List (String × Option Meta)) (k : String)
    (h : hasField (keepTruthy l) k = true) : k ∈ l.map Prod.fst := by
  induction l with
  | nil => simp [keepTruthy, hasField, getField] at h
  | cons head rest ih =>
      obtain ⟨k0, o0⟩ := head
      cases o0 with
      | some m =>
          simp only [keepTruthy, List.foldr] at h
          by_cases hm : m.truthy
          · rw [if_pos hm] at h
            by_cases hk : k0 = k
            · subst hk; simp
            · simp only [hasField, getField] at h
              rw [if_neg (by simpa using hk)] at h
              exact List.mem_cons.mpr (Or.inr (ih h))
          · rw [if_neg hm] at h
            exact List.mem_cons.mpr (Or.inr (ih h))
      | none =>
          simp only [keepTruthy, List.foldr] at h
          exact List.mem_cons.mpr (Or.inr (ih h))

theorem filterEntityFields_keys (val nf : List (String × Meta))
    (h : filterEntityFields val = .ok nf) (k : String)
    (hk : hasField nf k = true) : k ∈ domainKeys := by
  unfold filterEntityFields at h
  by_cases hu : looksLikeUserPayload val = true
  · rw [if_pos hu] at h
    cases hdn : userDisplayName val with
    | error e =>
        rw [hdn] at h
        simp [Except.map] at h
    | ok dn =>
        rw [hdn] at h
        simp only [Except.map] at h
        have hnf : nf = keepSomes [("id", getField val "id"), ("display_name", dn),
            ("email", getField val "email")] := by
          cases h
          rfl
        subst hnf
        have hmem := hasField_keepSomes _ _ hk
        simp only [List.map] at hmem
        fin_cases hmem <;> decide
  · rw [if_neg hu] at h
    have hnf : nf = keepSomes [("id", getField val "id"), ("name", getField val "name"),
        ("code", getField val "code"), ("type", getField val "type")] := by
      cases h
      rfl
    subst hnf
    have hmem := hasField_keepSomes _ _ hk
    simp only [List.map] at hmem
    fin_cases hmem <;> decide

theorem sanitizeItem_null_rule (fields : List (String × Meta))
    (hval : hasField fields "value" = true)
    (hinv : isLiteralFalse (getField fields "is_valid") = true) :
    sanitizeItem (.obj fields) = .ok .null := by
  simp only [sanitizeItem, hval, hinv, if_true]

theorem sanitizeWrapperValue_shape (fields : List (String × Meta)) (o : Option Meta) (v : Meta)
    (h : sanitizeWrapperValue fields o = .ok v) :
    v = .null ∨ ∃ l, v = .obj l ∧ hasField l "value" = true := by
  cases o with
  | none =>
      cases h
      exact Or.inr ⟨_, rfl, rfl⟩
  | some m =>
      cases m with
      | obj valFields =>
          simp only [sanitizeWrapperValue] at h
          cases hf : filterEntityFields valFields with
          | error e => rw [hf] at h; simp [Except.bind, Bind.bind] at h
          | ok nf =>
              rw [hf] at h
              simp only [Except.bind, Bind.bind] at h
              cases h
              exact Or.inr ⟨_, rfl, hasField_setField_self _ _ _⟩
      | null =>
          simp only [sanitizeWrapperValue] at h
          by_cases hmin : (minimalFields fields).isEmpty = true
          · rw [if_pos hmin] at h
            cases h
            exact Or.inl rfl
          · rw [if_neg hmin] at h
            cases h
            exact Or.inr ⟨_, rfl, hasField_setField_self _ _ _⟩
      | str s => cases h; exact Or.inr ⟨_, rfl, rfl⟩
      | num n => cases h; exact Or.inr ⟨_, rfl, rfl⟩
      | bool b => cases h; exact Or.inr ⟨_, rfl, rfl⟩
      | arr xs => cases h; exact Or.inr ⟨_, rfl, rfl⟩

theorem sanitizeItem_value_present (item v : Meta)
    (h : sanitizeItem item = .ok v) :
    v = .null ∨ ∃ l, v = .obj l ∧ hasField l "value" = true := by
  cases item with
  | obj fields =>
      simp only [sanitizeItem] at h
      by_cases hval : hasField fields "value" = true
      · rw [if_pos hval] at h
        by_cases hinv : isLiteralFalse (getField fields "is_valid") = true
        · rw [if_pos hinv] at h
          cases h
          exact Or.inl rfl
        · rw [if_neg hinv] at h
          exact sanitizeWrapperValue_shape fields _ v h
      · rw [if_neg hval] at h
        cases h
        exact Or.inr ⟨_, rfl, hasField_setField_self _ _ _⟩
  | str s => cases h; exact Or.inr ⟨_, rfl, rfl⟩
  | num n => cases h; exact Or.inr ⟨_, rfl, rfl⟩
  | bool b => cases h; exact Or.inr ⟨_, rfl, rfl⟩
  | null => cases h; exact Or.inr ⟨_, rfl, rfl⟩
  | arr xs => cases h; exact Or.inr ⟨_, rfl, rfl⟩

theorem hasField_false_of_not_domain (nf : List (String × Meta)) (k : String)
    (hkeys : ∀ k0, hasField nf k0 = true → k0 ∈ domainKeys)
    (hk : k ∉ domainKeys) : hasField nf k = false := by
  by_cases hc : hasField nf k = true
  · exact absurd (hkeys k hc) hk
  · simpa using hc

theorem minimalFields_keys (fields : List (String × Meta)) (k : String)
    (hk : hasField (minimalFields fields) k = true) : k ∈ domainKeys := by
  have hmem := hasField_keepTruthy _ _ hk
  simp only [List.map] at hmem
  fin_cases hmem <;> decide

theorem sanitizeWrapperValue_clean (fields : List (String × Meta)) (o : Option Meta)
    (l : List (String × Meta)) (h : sanitizeWrapperValue fields o = .ok (.obj l)) :
    hasField l "is_valid" = false ∧ hasField l "source" = false := by
  cases o with
  | none =>
      cases h
      exact ⟨rfl, rfl⟩
  | some m =>
      cases m with
      | obj valFields =>
          simp only [sanitizeWrapperValue] at h
          cases hf : filterEntityFields valFields with
          | error e => rw [hf] at h; simp [Except.bind, Bind.bind] at h
          | ok nf =>
              rw [hf] at h
              simp only [Except.bind, Bind.bind] at h
              cases h
              constructor
              · rw [hasField_setField_ne _ _ _ _ (by decide)]
                exact hasField_false_of_not_domain nf "is_valid"
                  (filterEntityFields_keys valFields nf hf) (by decide)
              · rw [hasField_setField_ne _ _ _ _ (by decide)]
                exact hasField_false_of_not_domain nf "source"
                  (filterEntityFields_keys valFields nf hf) (by decide)
      | null =>
          simp only [sanitizeWrapperValue] at h
          by_cases hmin : (minimalFields fields).isEmpty = true
          · rw [if_pos hmin] at h
            cases h
          · rw [if_neg hmin] at h
            cases h
            constructor
            · rw [hasField_setField_ne _ _ _ _ (by decide)]
              exact hasField_false_of_not_domain _ "is_valid"
                (minimalFields_keys fields) (by decide)
            · rw [hasField_setField_ne _ _ _ _ (by decide)]
              exact hasField_false_of_not_domain _ "source"
                (minimalFields_keys fields) (by decide)
      | str s => cases h; exact ⟨rfl, rfl⟩
      | num n => cases h; exact ⟨rfl, rfl⟩
      | bool b => cases h; exact ⟨rfl, rfl⟩
      | arr xs => cases h; exact ⟨rfl, rfl⟩

theorem sanitizeItem_wrapper_clean (fields l : List (String × Meta))
    (hval : hasField fields "value" = true)
    (h : sanitizeItem (.obj fields) = .ok (.obj l)) :
    hasField l "is_valid" = false ∧ hasField l "source" = false := by
  simp only [sanitizeItem, hval, if_true] at h
  by_cases hinv : isLiteralFalse (getField fields "is_valid") = true
  · rw [if_pos hinv] at h
    cases h
  · rw [if_neg hinv] at h
    exact sanitizeWrapperValue_clean fields _ l h

theorem sanitizeItem_wrapper_obj (fields valFields nf : List (String × Meta))
    (hv : getField fields "value" = some (.obj valFields))
    (hinv : isLiteralFalse (getField fields "is_valid") = false)
    (hf : filterEntityFields valFields = .ok nf) :
    sanitizeItem (.obj fields) = .ok
      (.obj (setField nf "value" (extractMetadataValue (.obj nf)))) := by
  have hval : hasField fields "value" = true := by simp [hasField, hv]
  simp only [sanitizeItem, hval, if_true]
  rw [if_neg (by simp [hinv]), hv]
  simp only [sanitizeWrapperValue, hf, Except.bind, Bind.bind]

theorem sanitizeMetadata_keys :
    ∀ (raw : List (String × Meta)) (allowed : Option (List String))
      (out : List (String × Meta)),
      sanitizeMetadata raw allowed = .ok out →
      ∀ kv ∈ out, allowedOk allowed kv.1 = true := by
  intro raw
  induction raw with
  | nil =>
      intro allowed out h kv hkv
      cases h
      exact absurd hkv (List.not_mem_nil _)
  | cons head rest ih =>
      intro allowed out h kv hkv
      obtain ⟨k0, i0⟩ := head
      simp only [sanitizeMetadata] at h
      by_cases ha : allowedOk allowed k0 = true
      · rw [if_pos ha] at h
        cases hi : sanitizeItem i0 with
        | error e => rw [hi] at h; simp [Except.bind, Bind.bind] at h
        | ok v0 =>
            rw [hi] at h
            cases ht : sanitizeMetadata rest allowed with
            | error e => rw [ht] at h; simp [Except.bind, Bind.bind] at h
            | ok tail =>
                rw [ht] at h
                simp only [Except.bind, Bind.bind] at h
                cases h
                rcases List.mem_cons.mp hkv with heq | hmem
                · subst heq; exact ha
                · exact ih allowed tail ht kv hmem
      · rw [if_neg ha] at h
        exact ih allowed out h kv hkv

theorem sanitizeMetadata_lookup_out :
    ∀ (raw : List (String × Meta)) (allowed : Option (List String))
      (out : List (String × Meta)),
      sanitizeMetadata raw allowed = .ok out →
      ∀ (k : String) (v : Meta), getField out k = some v →
      ∃ item, getField raw k = some item ∧ allowedOk allowed k = true ∧
        sanitizeItem item = .ok v := by
  intro raw
  induction raw with
  | nil =>
      intro allowed out h k v hv
      cases h
      simp [getField] at hv
  | cons head rest ih =>
      intro allowed out h k v hv
      obtain ⟨k0, i0⟩ := head
      simp only [sanitizeMetadata] at h
      by_cases ha : allowedOk allowed k0 = true
      · rw [if_pos ha] at h
        cases hi : sanitizeItem i0 with
        | error e => rw [hi] at h; simp [Except.bind, Bind.bind] at h
        | ok v0 =>
            rw [hi] at h
            cases ht : sanitizeMetadata rest allowed with
            | error e => rw [ht] at h; simp [Except.bind, Bind.bind] at h
            | ok tail =>
                rw [ht] at h
                simp only [Except.bind, Bind.bind] at h
                cases h
                by_cases hk : k0 = k
                · subst hk
                  simp only [getField] at hv ⊢
                  rw [if_pos (by simp)] at hv
                  refine ⟨i0, ?_, ha, ?_⟩
                  · rw [if_pos (by simp)]
                  · cases hv
                    exact hi
                · simp only [getField] at hv ⊢
                  rw [if_neg (by simpa using hk)] at hv ⊢
                  exact ih allowed tail ht k v hv
      · rw [if_neg ha] at h
        obtain ⟨item, hraw, hallow, hi⟩ := ih allowed out h k v hv
        by_cases hk : k0 = k
        · subst hk
          exact absurd hallow ha
        · refine ⟨item, ?_, hallow, hi⟩
          simp only [getField]
          rw [if_neg (by simpa using hk)]
          exact hraw

theorem sanitizeMetadata_lookup_in :
    ∀ (raw : List (String × Meta)) (allowed : Option (List String))
      (out : List (String × Meta)),
      sanitizeMetadata raw allowed = .ok out →
      ∀ (k : String) (item : Meta), getField raw k = some item →
        allowedOk allowed k = true →
      ∃ v, sanitizeItem item = .ok v ∧ getField out k = some v := by
  intro raw
  induction raw with
  | nil =>
      intro allowed out h k item hitem
      simp [getField] at hitem
  | cons head rest ih =>
      intro allowed out h k item hitem hallow
      obtain ⟨k0, i0⟩ := head
      simp only [sanitizeMetadata] at h
      by_cases hk : k0 = k
      · subst hk
        simp only [getField] at hitem
        rw [if_pos (by simp)] at hitem
        cases hitem
        rw [if_pos hallow] at h
        cases hi : sanitizeItem item with
        | error e => rw [hi] at h; simp [Except.bind, Bind.bind] at h
        | ok v0 =>
            rw [hi] at h
            cases ht : sanitizeMetadata rest allowed with
            | error e => rw [ht] at h; simp [Except.bind, Bind.bind] at h
            | ok tail =>
                rw [ht] at h
                simp only [Except.bind, Bind.bind] at h
                cases h
                refine ⟨v0, rfl, ?_⟩
                simp only [getField]
                rw [if_pos (by simp)]
      · simp only [getField] at hitem
        rw [if_neg (by simpa using hk)] at hitem
        by_cases ha : allowedOk allowed k0 = true
        · rw [if_pos ha] at h
          cases hi : sanitizeItem i0 with
          | error e => rw [hi] at h; simp [Except.bind, Bind.bind] at h
          | ok v0 =>
              rw [hi] at h
              cases ht : sanitizeMetadata rest allowed with
              | error e => rw [ht] at h; simp [Except.bind, Bind.bind] at h
              | ok tail =>
                  rw [ht] at h
                  simp only [Except.bind, Bind.bind] at h
                  cases h
                  obtain ⟨v, hv, hout⟩ := ih allowed tail ht k item hitem hallow
                  refine ⟨v, hv, ?_⟩
                  simp only [getField]
                  rw [if_neg (by simpa using hk)]
                  exact hout
        · rw [if_neg ha] at h
          exact ih allowed out h k item hitem hallow

/-- C4 (amended): sanitization drops keys outside the schema allowed set;
wrapper entries (those carrying a `value` key) marked `is_valid: false`
become null and their outputs retain no `is_valid`/`source` attributes;
every surviving object carries a `value` attribute; for a wrapper holding an
object, the output is the filtered domain fields plus a `value` computed by
`extract_metadata_value` (the display_name/name/code/email/id priority with
a fallback to the first non-empty remaining attribute). -/
theorem claim_C4_sanitize_guarantees (raw : List (String × Meta)) (allowed : List String)
    (out : List (String × Meta)) (hok : sanitizeMetadata raw (some allowed) = .ok out) :
    (∀ kv ∈ out, allowed.contains kv.1 = true) ∧
    (∀ k fields, getField raw k = some (.obj fields) → hasField fields "value" = true →
      isLiteralFalse (getField fields "is_valid") = true → allowed.contains k = true →
      getField out k = some .null) ∧
    (∀ k fields l, getField raw k = some (.obj fields) → hasField fields "value" = true →
      getField out k = some (.obj l) →
      hasField l "is_valid" = false ∧ hasField l "source" = false) ∧
    (∀ k l, getField out k = some (.obj l) → hasField l "value" = true) ∧
    (∀ k fields valFields nf, getField raw k = some (.obj fields) →
      getField fields "value" = some (.obj valFields) →
      isLiteralFalse (getField fields "is_valid") = false →
      allowed.contains k = true → filterEntityFields valFields = .ok nf →
      getField out k = some (.obj (setField nf "value"
        (extractMetadataValue (.obj nf))))) := by
  refine ⟨?_, ?_, ?_, ?_, ?_⟩
  · intro kv hkv
    exact sanitizeMetadata_keys raw (some allowed) out hok kv hkv
  · intro k fields hraw hval hinv hallow
    obtain ⟨v, hv, hout⟩ :=
      sanitizeMetadata_lookup_in raw (some allowed) out hok k (.obj fields) hraw hallow
    rw [sanitizeItem_null_rule fields hval hinv] at hv
    cases hv
    exact hout
  · intro k fields l hraw hval hout
    obtain ⟨item, hraw2, _, hitem⟩ :=
      sanitizeMetadata_lookup_out raw (some allowed) out hok k (.obj l) hout
    rw [hraw] at hraw2
    cases hraw2
    exact sanitizeItem_wrapper_clean fields l hval hitem
  · intro k l hout
    obtain ⟨item, _, _, hitem⟩ :=
      sanitizeMetadata_lookup_out raw (some allowed) out hok k (.obj l) hout
    rcases sanitizeItem_value_present item (.obj l) hitem with hnull | ⟨l2, heq, hfield⟩
    · cases hnull
    · cases heq
      exact hfield
  · intro k fields valFields nf hraw hv hinv hallow hf
    obtain ⟨v, hvv, hout⟩ :=
      sanitizeMetadata_lookup_in raw (some allowed) out hok k (.obj fields) hraw hallow
    rw [sanitizeItem_wrapper_obj fields valFields nf hv hinv hf] at hvv
    cases hvv
    exact hout

/-- Counterexample to C4 as stated: an object carrying `is_valid`/`source`
but no `value` key survives sanitization with both attributes intact (and is
not mapped to null despite `is_valid: false`), and a wrapper object with
only a `type` attribute receives a `value` taken from `type`, outside the
claimed display_name/name/code/email/id priority list. -/
theorem claim_C4_counterexample :
    sanitizeMetadata exC4Raw (some ["k", "j"]) = .ok exC4Out ∧
    getField exC4Out "k" = some (.obj [("is_valid", .bool false), ("source", .str "ocr_raw"),
      ("name", .str "X"), ("value", .str "X")]) ∧
    getField exC4Out "j" = some (.obj [("type", .str "career"), ("value", .str "career")]) := by
  exact ⟨rfl, rfl, rfl⟩

/-- Witness for C4 (amended) at a concrete wrapper map. -/
theorem claim_C4_witness :
    sanitizeMetadata exC4Good (some ["a"]) =
      .ok [("a", .obj [("name", .str "Acta"), ("code", .str "A-1"), ("value", .str "Acta")])] ∧
    (hasField [("name", Meta.str "Acta"), ("code", .str "A-1"), ("value", .str "Acta")]
        "is_valid" = false ∧
      hasField [("name", Meta.str "Acta"), ("code", .str "A-1"), ("value", .str "Acta")]
        "source" = false) := by
  refine ⟨rfl, ?_⟩
  exact (claim_C4_sanitize_guarantees exC4Good ["a"]
      [("a", .obj [("name", .str "Acta"), ("code", .str "A-1"), ("value", .str "Acta")])]
      rfl).2.2.1 "a"
    [("value", .obj [("name", .str "Acta"), ("code", .str "A-1")]),
     ("is_valid", .bool true), ("source", .str "ocr_raw")]
    [("name", .str "Acta"), ("code", .str "A-1"), ("value", .str "Acta")]
    rfl rfl rfl

theorem promotionLoop_cons_none (bucket dir k0 f0 : String) (rest : List (String × String))
    (updated : StorageData) (copies : List (String × String)) (st : List String)
    (h : updated.read k0 = none) :
    promotionLoop bucket dir ((k0, f0) :: rest) updated copies st =
      promotionLoop bucket dir rest updated copies st := by
  simp [promotionLoop, h]

theorem promotionLoop_cons_empty (bucket dir k0 f0 : String) (rest : List (String × String))
    (updated : StorageData) (copies : List (String × String)) (st : List String)
    (h : updated.read k0 = some "") :
    promotionLoop bucket dir ((k0, f0) :: rest) updated copies st =
      promotionLoop bucket dir rest updated copies st := by
  simp [promotionLoop, h]

theorem promotionLoop_cons_some (bucket dir k0 f0 src : String) (rest : List (String × String))
    (updated : StorageData) (copies : List (String × String)) (st : List String)
    (h : updated.read k0 = some src) (hs : src ≠ "") :
    promotionLoop bucket dir ((k0, f0) :: rest) updated copies st =
      promotionLoop bucket dir rest (updated.write k0 (bucket ++ "/" ++ (dir ++ "/" ++ f0)))
        (copies ++ [(objectName bucket src, dir ++ "/" ++ f0)])
        (if pyStartsWith (objectName bucket src) "stage-validate/" &&
            !st.contains (objectName bucket src)
         then st ++ [objectName bucket src] else st) := by
  simp only [promotionLoop, h]
  rw [if_neg (by simpa using hs)]

theorem promotionLoop_removes_mem (bucket dir : String) :
    ∀ (mapping : List (String × String)) (updated : StorageData)
      (copies : List (String × String)) (st : List String) (o : String),
      o ∈ (promotionLoop bucket dir mapping updated copies st).2.1 →
      o ∈ st ∨ pyStartsWith o "stage-validate/" = true := by
  intro mapping
  induction mapping with
  | nil =>
      intro updated copies st o h
      exact Or.inl h
  | cons head rest ih =>
      intro updated copies st o h
      obtain ⟨k0, f0⟩ := head
      cases hread : updated.read k0 with
      | none =>
          rw [promotionLoop_cons_none bucket dir k0 f0 rest updated copies st hread] at h
          exact ih updated copies st o h
      | some src =>
          by_cases hsrc : src = ""
          · subst hsrc
            rw [promotionLoop_cons_empty bucket dir k0 f0 rest updated copies st hread] at h
            exact ih updated copies st o h
          · rw [promotionLoop_cons_some bucket dir k0 f0 src rest updated copies st hread hsrc] at h
            by_cases hadd : pyStartsWith (objectName bucket src) "stage-validate/" &&
                !st.contains (objectName bucket src)
            · rw [if_pos hadd] at h
              rcases ih _ _ _ o h with hmem | hs
              · rcases List.mem_append.mp hmem with hmem1 | hmem1
                · exact Or.inl hmem1
                · have ho : o = objectName bucket src := List.mem_singleton.mp hmem1
                  subst ho
                  exact Or.inr (Bool.and_elim_left hadd)
              · exact Or.inr hs
            · rw [if_neg hadd] at h
              exact ih _ _ _ o h

theorem promotionLoop_removes_nodup (bucket dir : String) :
    ∀ (mapping : List (String × String)) (updated : StorageData)
      (copies : List (String × String)) (st : List String),
      st.Nodup → (promotionLoop bucket dir mapping updated copies st).2.1.Nodup := by
  intro mapping
  induction mapping with
  | nil =>
      intro updated copies st h
      exact h
  | cons head rest ih =>
      intro updated copies st h
      obtain ⟨k0, f0⟩ := head
      cases hread : updated.read k0 with
      | none =>
          rw [promotionLoop_cons_none bucket dir k0 f0 rest updated copies st hread]
          exact ih updated copies st h
      | some src =>
          by_cases hsrc : src = ""
          · subst hsrc
            rw [promotionLoop_cons_empty bucket dir k0 f0 rest updated copies st hread]
            exact ih updated copies st h
          · rw [promotionLoop_cons_some bucket dir k0 f0 src rest updated copies st hread hsrc]
            by_cases hadd : pyStartsWith (objectName bucket src) "stage-validate/" &&
                !st.contains (objectName bucket src)
            · rw [if_pos hadd]
              refine ih _ _ _ ?_
              have hnotmem : objectName bucket src ∉ st := by
                have h2 := Bool.and_elim_right hadd
                simpa using h2
              simpa [List.nodup_append] using ⟨h, hnotmem⟩
            · rw [if_neg hadd]
              exact ih _ _ _ h

theorem promotionLoop_copies_mono (bucket dir : String) :
    ∀ (mapping : List (String × String)) (updated : StorageData)
      (copies : List (String × String)) (st : List String) (c : String × String),
      c ∈ copies → c ∈ (promotionLoop bucket dir mapping updated copies st).1 := by
  intro mapping
  induction mapping with
  | nil =>
      intro updated copies st c h
      exact h
  | cons head rest ih =>
      intro updated copies st c h
      obtain ⟨k0, f0⟩ := head
      cases hread : updated.read k0 with
      | none =>
          rw [promotionLoop_cons_none bucket dir k0 f0 rest updated copies st hread]
          exact ih updated copies st c h
      | some src =>
          by_cases hsrc : src = ""
          · subst hsrc
            rw [promotionLoop_cons_empty bucket dir k0 f0 rest updated copies st hread]
            exact ih updated copies st c h
          · rw [promotionLoop_cons_some bucket dir k0 f0 src rest updated copies st hread hsrc]
            exact ih _ _ _ c (List.mem_append.mpr (Or.inl h))

theorem promotionLoop_copies_key (bucket dir : String) :
    ∀ (mapping : List (String × String)) (updated : StorageData)
      (copies : List (String × String)) (st : List String) (key filename s : String),
      (key, filename) ∈ mapping →
      (mapping.map Prod.fst).Nodup →
      (∀ (u : StorageData) (k1 : String), k1 ∈ mapping.map Prod.fst → k1 ≠ key →
        ∀ v, (u.write k1 v).read key = u.read key) →
      updated.read key = some s → s ≠ "" →
      (objectName bucket s, dir ++ "/" ++ filename) ∈
        (promotionLoop bucket dir mapping updated copies st).1 := by
  intro mapping
  induction mapping with
  | nil =>
      intro updated copies st key filename s hmem
      exact absurd hmem (List.not_mem_nil _)
  | cons head rest ih =>
      intro updated copies st key filename s hmem hnd hpres hread hs
      obtain ⟨k0, f0⟩ := head
      rcases List.mem_cons.mp hmem with heq | hmem1
      · have hk : k0 = key := (Prod.mk.injEq _ _ _ _ ▸ heq.symm).1
        have hf : f0 = filename := (Prod.mk.injEq _ _ _ _ ▸ heq.symm).2
        subst hk; subst hf
        rw [promotionLoop_cons_some bucket dir k0 f0 s rest updated copies st hread hs]
        exact promotionLoop_copies_mono bucket dir rest _ _ _ _
          (List.mem_append.mpr (Or.inr (List.mem_singleton.mpr rfl)))
      · have hnd1 : (k0 :: rest.map Prod.fst).Nodup := by
          simpa using hnd
        have hk0ne : k0 ≠ key := by
          intro hcontra
          subst hcontra
          have hkey : k0 ∈ rest.map Prod.fst :=
            List.mem_map.mpr ⟨(k0, filename), hmem1, rfl⟩
          exact (List.nodup_cons.mp hnd1).1 hkey
        have hndr : (rest.map Prod.fst).Nodup := (List.nodup_cons.mp hnd1).2
        have hpresr : ∀ (u : StorageData) (k1 : String), k1 ∈ rest.map Prod.fst → k1 ≠ key →
            ∀ v, (u.write k1 v).read key = u.read key := by
          intro u k1 hk1 hne v
          exact hpres u k1 (by simp [hk1]) hne v
        cases hread0 : updated.read k0 with
        | none =>
            rw [promotionLoop_cons_none bucket dir k0 f0 rest updated copies st hread0]
            exact ih updated copies st key filename s hmem1 hndr hpresr hread hs
        | some src =>
            by_cases hsrc : src = ""
            · subst hsrc
              rw [promotionLoop_cons_empty bucket dir k0 f0 rest updated copies st hread0]
              exact ih updated copies st key filename s hmem1 hndr hpresr hread hs
            · rw [promotionLoop_cons_some bucket dir k0 f0 src rest updated copies st hread0 hsrc]
              refine ih _ _ _ key filename s hmem1 hndr hpresr ?_ hs
              rw [hpres updated k0 (by simp) hk0ne _]
              exact hread

/-- C10: archive promotion removes only objects whose bucket-relative path
starts with `stage-validate/`, removes each such object at most once even
when several logical keys share it, copies every present source to its
archive destination, and never removes a copied source that lies outside
the staging area. -/
theorem claim_C10_archive_promotion (bucket : String) (snap : ArchiveSnapshot)
    (storage : StorageData) :
    (∀ o ∈ (promoteFromStage bucket snap storage).removes,
        pyStartsWith o "stage-validate/" = true) ∧
    (promoteFromStage bucket snap storage).removes.Nodup ∧
    (∀ o d, (o, d) ∈ (promoteFromStage bucket snap storage).copies →
        pyStartsWith o "stage-validate/" = false →
        o ∉ (promoteFromStage bucket snap storage).removes) ∧
    (∀ s, storage.pdf_path = some s → s ≠ "" →
        (objectName bucket s, buildArchiveDir snap ++ "/" ++ "principal.pdf") ∈
          (promoteFromStage bucket snap storage).copies) ∧
    (∀ s, storage.json_path = some s → s ≠ "" →
        (objectName bucket s, buildArchiveDir snap ++ "/" ++ "metadata.json") ∈
          (promoteFromStage bucket snap storage).copies) ∧
    (∀ s, storage.text_path = some s → s ≠ "" →
        (objectName bucket s, buildArchiveDir snap ++ "/" ++ "extracted.txt") ∈
          (promoteFromStage bucket snap storage).copies) ∧
    (∀ s, storage.pdf_original_path = some s → s ≠ "" →
        (objectName bucket s, buildArchiveDir snap ++ "/" ++ "original.pdf") ∈
          (promoteFromStage bucket snap storage).copies) := by
  have hrem : ∀ o ∈ (promoteFromStage bucket snap storage).removes,
      pyStartsWith o "stage-validate/" = true := by
    intro o ho
    have hmem : o ∈ (promotionLoop bucket (buildArchiveDir snap) promotionMapping
        storage [] []).2.1 := ho
    rcases promotionLoop_removes_mem bucket (buildArchiveDir snap) promotionMapping
        storage [] [] o hmem with hcon | hok
    · exact absurd hcon (List.not_mem_nil o)
    · exact hok
  have hnd : (promotionMapping.map Prod.fst).Nodup := by decide
  have hkey : ∀ (key filename : String), (key, filename) ∈ promotionMapping →
      (∀ (u : StorageData) (k1 : String), k1 ∈ promotionMapping.map Prod.fst → k1 ≠ key →
        ∀ v, (u.write k1 v).read key = u.read key) →
      ∀ s, storage.read key = some s → s ≠ "" →
      (objectName bucket s, buildArchiveDir snap ++ "/" ++ filename) ∈
        (promoteFromStage bucket snap storage).copies := by
    intro key filename hm hpres s hr hs
    exact promotionLoop_copies_key bucket (buildArchiveDir snap) promotionMapping
      storage [] [] key filename s hm hnd hpres hr hs
  refine ⟨hrem, ?_, ?_, ?_, ?_, ?_, ?_⟩
  · exact promotionLoop_removes_nodup bucket (buildArchiveDir snap) promotionMapping
      storage [] [] List.nodup_nil
  · intro o d hc hns hmem
    rw [hrem o hmem] at hns
    exact absurd hns (by decide)
  · intro s hr hs
    refine hkey "pdf_path" "principal.pdf" (by simp [promotionMapping]) ?_ s hr hs
    intro u k1 hk1 hne v
    fin_cases hk1 <;> first | rfl | exact absurd rfl hne
  · intro s hr hs
    refine hkey "json_path" "metadata.json" (by simp [promotionMapping]) ?_ s hr hs
    intro u k1 hk1 hne v
    fin_cases hk1 <;> first | rfl | exact absurd rfl hne
  · intro s hr hs
    refine hkey "text_path" "extracted.txt" (by simp [promotionMapping]) ?_ s hr hs
    intro u k1 hk1 hne v
    fin_cases hk1 <;> first | rfl | exact absurd rfl hne
  · intro s hr hs
    refine hkey "pdf_original_path" "original.pdf" (by simp [promotionMapping]) ?_ s hr hs
    intro u k1 hk1 hne v
    fin_cases hk1 <;> first | rfl | exact absurd rfl hne

/-- Witness for C10: the scenario where `keep_original` made two logical
keys share one staged object, plus a non-staged source. -/
theorem claim_C10_witness :
    (promoteFromStage "documents-storage" exArchiveSnap exStorage).removes.Nodup ∧
    (objectName "documents-storage"
        "documents-storage/stage-validate/u1/task_1/pdf_original_path_document.pdf",
      buildArchiveDir exArchiveSnap ++ "/" ++ "principal.pdf") ∈
      (promoteFromStage "documents-storage" exArchiveSnap exStorage).copies ∧
    (objectName "documents-storage" "documents-storage/archive/old/task_1/metadata.json",
      buildArchiveDir exArchiveSnap ++ "/" ++ "metadata.json") ∈
      (promoteFromStage "documents-storage" exArchiveSnap exStorage).copies := by
  refine ⟨(claim_C10_archive_promotion "documents-storage" exArchiveSnap exStorage).2.1,
    ?_, ?_⟩
  · exact (claim_C10_archive_promotion "documents-storage" exArchiveSnap
      exStorage).2.2.2.1 _ rfl (by decide)
  · exact (claim_C10_archive_promotion "documents-storage" exArchiveSnap
      exStorage).2.2.2.2.1 _ rfl (by decide)

/-- C1: confirmation is claimed to refuse a non-owner with 403 and leave the
document unchanged. The `ValidationService.confirm_validation` defined in
service.py receives no caller identity at all (the router passes one, which
its signature cannot accept): on the concrete store whose document `doc1` is
owned by `u1`, the call succeeds and flips the document to
confirmed/locked irrespective of any caller, so no ownership check exists. -/
theorem claim_C1_confirm_no_owner_check :
    (oldConfirmValidation exOldDb "doc1" [("campo", Meta.str "valor")] 7).2 = .ok () ∧
    ((oldConfirmValidation exOldDb "doc1" [("campo", Meta.str "valor")] 7).1.documents.find?
        (fun kv => kv.1 == "doc1")).map
      (fun kv => (kv.2.owner_id, kv.2.status, kv.2.is_locked)) =
      some ("u1", "confirmed", true) := by
  exact ⟨rfl, rfl⟩

/-- C2: ingestion is claimed to leave exactly one `usa_esquema`, one
`file_located_in` and one `complies_with` edge, each keyed
task-id_to-key. The edge step of `process_ocr_result` in logic.py (the
function the Kafka consumer imports) creates a `usa_esquema` edge and a
legacy `pertenece_a` edge into `entidades` only, never `file_located_in`
or `complies_with`; the refactored `create_structural_edges` in
pipeline/edges.py, which has no caller, produces exactly the three claimed
edges with the claimed keys. -/
theorem claim_C2_structural_edges :
    (legacyStructuralEdges "T1" (some "S1") (some "E1")).map (·.collection) =
      ["usa_esquema", "pertenece_a"] ∧
    ((legacyStructuralEdges "T1" (some "S1") (some "E1")).map (·.collection)).contains
      "file_located_in" = false ∧
    ((legacyStructuralEdges "T1" (some "S1") (some "E1")).map (·.collection)).contains
      "complies_with" = false ∧
    (createStructuralEdges "T1" (some "S1") (some "E1") (some "R1")).map
      (fun e => (e.collection, e.key)) =
      [("usa_esquema", "T1_S1"), ("file_located_in", "T1_E1"), ("complies_with", "T1_R1")] := by
  exact ⟨rfl, rfl, rfl, rfl⟩

/-- Helper for C5: verification of a stored manifest whose signature and
hashes were produced over the same metadata and pdf yields an all-true
report. -/
theorem verify_roundtrip_report (h : HashModel) (fs : List (String × Meta))
    (storagePdf : Option String) (m : Manifest) (sig : String) (p : String)
    (hsig_ne : sig ≠ "") (hsig_eq : sig = h.hmacSign (canonicalManifest m))
    (hmeta : m.hashes.validated_metadata_sha256 = hashJson h (.obj fs))
    (hsp : m.selected_pdf_path = some p) (hpne : p ≠ "")
    (hph : m.hashes.pdf_sha256 = some (h.objectSha256 p)) :
    verifyIntegrityPayload h (.obj fs) storagePdf (some m) (some sig) =
      { is_valid := true, signature_valid := true, metadata_hash_valid := true
        pdf_hash_valid := true, selected_pdf_path := some p
        message := "Integridad verificada correctamente." } := by
  have hb : (sig == "") = false := beq_eq_false_iff_ne.mpr hsig_ne
  have hmo : metaOrEmptyObj (.obj fs) = .obj fs := by cases fs <;> rfl
  have hpt : optStrTruthy (some p) = true := by simp [optStrTruthy, hpne]
  simp only [verifyIntegrityPayload]
  rw [hb]
  simp only [Bool.false_eq_true, if_false, hmeta, hmo, hsp, hph, pyOrStr, hpt, if_true,
    Option.map_some', ← hsig_eq, beq_self_eq_true, Bool.and_self]

/-- C5: after confirmation computes the integrity payload over a metadata
map and a selected pdf path, verifying with the same metadata, the same
stored object bytes and the stored manifest and signature yields
signature_valid, metadata_hash_valid and pdf_hash_valid all true, for any
hash and HMAC functions; the manifest is signed over its canonical JSON
with sorted keys and compact separators (`canonicalManifest`). -/
theorem claim_C5_integrity_roundtrip (h : HashModel) (docId : String)
    (fs : List (String × Meta)) (confirmedBy : String) (keepOriginal : Bool)
    (p : String) (confirmedAt : String) (storagePdf : Option String)
    (hp : p ≠ "")
    (hsig : (buildIntegrityPayload h docId (.obj fs) confirmedBy keepOriginal
      (some p) confirmedAt).manifest_signature ≠ "") :
    verifyIntegrityPayload h (.obj fs) storagePdf
        (some (buildIntegrityPayload h docId (.obj fs) confirmedBy keepOriginal
          (some p) confirmedAt).manifest)
        (some (buildIntegrityPayload h docId (.obj fs) confirmedBy keepOriginal
          (some p) confirmedAt).manifest_signature) =
      { is_valid := true, signature_valid := true, metadata_hash_valid := true
        pdf_hash_valid := true, selected_pdf_path := some p
        message := "Integridad verificada correctamente." } := by
  refine verify_roundtrip_report h fs storagePdf _ _ p hsig rfl rfl rfl hp ?_
  simp [buildIntegrityPayload, optStrTruthy, hp]

/-- Witness for C5 at a concrete payload. -/
theorem claim_C5_witness :
    verifyIntegrityPayload exHashes (.obj [("a", Meta.str "x")]) none
        (some (buildIntegrityPayload exHashes "doc1" (.obj [("a", Meta.str "x")]) "u1" false
          (some "b/archive/doc1/principal.pdf") "t0").manifest)
        (some (buildIntegrityPayload exHashes "doc1" (.obj [("a", Meta.str "x")]) "u1" false
          (some "b/archive/doc1/principal.pdf") "t0").manifest_signature) =
      { is_valid := true, signature_valid := true, metadata_hash_valid := true
        pdf_hash_valid := true, selected_pdf_path := some "b/archive/doc1/principal.pdf"
        message := "Integridad verificada correctamente." } :=
  claim_C5_integrity_roundtrip exHashes "doc1" [("a", Meta.str "x")] "u1" false
    "b/archive/doc1/principal.pdf" "t0" none (by decide) (by decide)

/-- C6: for the sensitive status, a caller whose approve and reject scope
lists are both empty receives 403 (`resolve_status_and_teams`), and a
non-star workflow team passes through; but the claimed owner restriction
does not exist in the result set: `search_documents` in search/service.py
takes no caller identity and builds no `doc.owner.id` clause, so on the
S5 graph it returns the document owned by `u1` for the scope `CARR:TDI`
whoever the caller is. -/
theorem claim_C6_search_owner_restriction :
    resolveStatusAndTeams (some "attention_required") [] [] [] = .error 403 ∧
    resolveStatusAndTeams (some "attention_required") [] ["CARR:TDI"] [] =
      .ok ("attention_required", ["CARR:TDI"]) ∧
    pageOwners (searchDocumentsLive exSearchDb 1 10 none none
      (some "attention_required") (some ["CARR:TDI"])) = [("T1", "u1")] := by
  exact ⟨rfl, rfl, rfl⟩

/-- C7: the status stored at ingestion is `attention_required` exactly when
some validated field has `is_valid: false` or some warning exists, and
`validated` otherwise (`process_ocr_result`, logic.py lines 48-50). -/
theorem claim_C7_status_rule (vm : List (String × ValidatedItem)) (warnings : List String) :
    (ocrStatus vm warnings = "attention_required" ↔
      ((∃ kv ∈ vm, kv.2.is_valid = false) ∨ warnings ≠ [])) ∧
    (ocrStatus vm warnings = "validated" ↔
      ¬ ((∃ kv ∈ vm, kv.2.is_valid = false) ∨ warnings ≠ [])) := by
  have hcond : (vm.any (fun kv => !kv.2.is_valid) || !warnings.isEmpty) = true ↔
      ((∃ kv ∈ vm, kv.2.is_valid = false) ∨ warnings ≠ []) := by
    rw [Bool.or_eq_true, List.any_eq_true]
    constructor
    · rintro (⟨kv, hm, hv⟩ | hw)
      · exact Or.inl ⟨kv, hm, by simpa using hv⟩
      · cases warnings with
        | nil => simp at hw
        | cons a l => exact Or.inr (by simp)
    · rintro (⟨kv, hm, hv⟩ | hw)
      · exact Or.inl ⟨kv, hm, by simp [hv]⟩
      · cases warnings with
        | nil => exact absurd rfl hw
        | cons a l => exact Or.inr (by simp)
  rcases hb : (vm.any (fun kv => !kv.2.is_valid) || !warnings.isEmpty) with _ | _
  · have hnot : ¬ ((∃ kv ∈ vm, kv.2.is_valid = false) ∨ warnings ≠ []) := by
      rw [← hcond, hb]; simp
    have hs : ocrStatus vm warnings = "validated" := by
      unfold ocrStatus
      simp only [hb]
      rfl
    refine ⟨⟨fun heq => ?_, fun hp => absurd hp hnot⟩, ⟨fun _ => hnot, fun _ => hs⟩⟩
    · rw [hs] at heq
      exact absurd heq (by decide)
  · have hp : ((∃ kv ∈ vm, kv.2.is_valid = false) ∨ warnings ≠ []) := hcond.mp hb
    have hs : ocrStatus vm warnings = "attention_required" := by
      unfold ocrStatus
      simp only [hb]
      rfl
    refine ⟨⟨fun _ => hp, fun _ => hs⟩, ⟨fun heq => ?_, fun hn => absurd hp hn⟩⟩
    · rw [hs] at heq
      exact absurd heq (by decide)

/-- C8: every string-valued metadata filter yields the clause combining
CONTAINS with a LEVENSHTEIN_DISTANCE bound computed from the trimmed value
length: 1 up to 6 characters, 2 up to 16, 3 beyond. -/
theorem claim_C8_metadata_fuzziness (metadataFilters : List (String × Meta)) (k v : String)
    (hmem : (k, Meta.str v) ∈ metadataFilters) :
    MetaClause.containsOrLev k v (metadataStringDistance v) ∈
      addMetadataFilters metadataFilters ∧
    ((pyStrip v).length ≤ 6 → metadataStringDistance v = 1) ∧
    (6 < (pyStrip v).length → (pyStrip v).length ≤ 16 → metadataStringDistance v = 2) ∧
    (16 < (pyStrip v).length → metadataStringDistance v = 3) := by
  refine ⟨?_, ?_, ?_, ?_⟩
  · exact List.mem_flatMap.mpr ⟨(k, Meta.str v), hmem, by simp⟩
  · intro h6
    unfold metadataStringDistance
    simp [h6]
  · intro h6 h16
    unfold metadataStringDistance
    rw [if_neg (by omega), if_pos h16]
  · intro h16
    unfold metadataStringDistance
    rw [if_neg (by omega), if_neg (by omega)]

/-- Witness for C8: a six-character value uses fuzziness 1, a
seven-character value fuzziness 2. -/
theorem claim_C8_witness :
    (MetaClause.containsOrLev "foo" "barbar" (metadataStringDistance "barbar") ∈
        addMetadataFilters [("foo", Meta.str "barbar")] ∧
      metadataStringDistance "barbar" = 1) ∧
    metadataStringDistance "barbarb" = 2 :=
  ⟨⟨(claim_C8_metadata_fuzziness [("foo", Meta.str "barbar")] "foo" "barbar"
      (List.mem_singleton.mpr rfl)).1,
    (claim_C8_metadata_fuzziness [("foo", Meta.str "barbar")] "foo" "barbar"
      (List.mem_singleton.mpr rfl)).2.1 (by decide)⟩,
   by decide⟩

/-- C9: when the stored integrity record lacks a manifest or a signature,
verification returns the all-false report with an explanatory message
instead of raising (`verify_integrity_payload`). -/
theorem claim_C9_verify_missing_manifest (h : HashModel) (md : Meta)
    (storagePdf : Option String) (manifest : Option Manifest) (sig : Option String)
    (hmiss : manifest = none ∨ sig = none ∨ sig = some "") :
    verifyIntegrityPayload h md storagePdf manifest sig =
      { is_valid := false, signature_valid := false, metadata_hash_valid := false
        pdf_hash_valid := false, selected_pdf_path := none
        message := "No existe manifiesto/firma de integridad para verificar." } := by
  rcases hmiss with h1 | h2 | h3
  · subst h1
    cases sig <;> rfl
  · subst h2
    cases manifest <;> rfl
  · subst h3
    cases manifest <;> rfl

/-- Witness for C9 at a concrete empty signature. -/
theorem claim_C9_witness :
    (none = (none : Option Manifest) ∨ (some "" : Option String) = none ∨
      (some "" : Option String) = some "") ∧
    verifyIntegrityPayload exHashes (.obj []) none none (some "") =
      { is_valid := false, signature_valid := false, metadata_hash_valid := false
        pdf_hash_valid := false, selected_pdf_path := none
        message := "No existe manifiesto/firma de integridad para verificar." } :=
  ⟨Or.inl rfl, claim_C9_verify_missing_manifest exHashes (.obj []) none none (some "")
    (Or.inl rfl)⟩
